import Mathlib

/-!
# Productivity tracker: task store and timer session

A shallow embedding of `Dashboard.jsx`, `TimeTracker.jsx` and `TaskCard.jsx`.

* `Dashboard` owns the `tasks` array and `activeTask`; its handlers `addTask`,
  `updateTask`, `deleteTask`, `startTimer`, `stopTimer` and `updateTimeSpent`
  are pure functions on the state below.
* `TimeTracker` is rendered as `{activeTask && <TimeTracker task={activeTask} />}`,
  so its hooks (`isRunning`, `sessionTime`, the interval kept in `timerRef`) exist
  exactly while `activeTask` is non-null.  The two are stored together.
* `TaskCard` builds the patch of its Save button from its `editData` state.
-/

namespace ProductivityTracker

/-! ## Data model -/

/-- A task object as built by `addTask` in `Dashboard.jsx`.  `id` is a `Date.now()`
reading, `createdAt` the instant whose ISO rendering is stored, `timeSpent` a
number of minutes, `dueDate` is `null` or a date string. -/
structure Task where
  id : Nat
  title : String
  description : String
  category : String
  priority : String
  status : String
  timeSpent : Int
  createdAt : Nat
  dueDate : Option String
  deriving DecidableEq, Repr

/-- The `updates` argument of `updateTask`: an object holding any subset of the
keys of a task.  A key that is absent is `none`. -/
structure Updates where
  id : Option Nat := none
  title : Option String := none
  description : Option String := none
  category : Option String := none
  priority : Option String := none
  status : Option String := none
  timeSpent : Option Int := none
  createdAt : Option Nat := none
  dueDate : Option (Option String) := none
  deriving DecidableEq, Repr

/-- The object spread `{ ...task, ...updates }`: every key present in `updates`
replaces the key of `task`, every other key is kept. -/
def spread (task : Task) (updates : Updates) : Task :=
  { id := updates.id.getD task.id
    title := updates.title.getD task.title
    description := updates.description.getD task.description
    category := updates.category.getD task.category
    priority := updates.priority.getD task.priority
    status := updates.status.getD task.status
    timeSpent := updates.timeSpent.getD task.timeSpent
    createdAt := updates.createdAt.getD task.createdAt
    dueDate := updates.dueDate.getD task.dueDate }

/-- The hooks of a mounted `TimeTracker`: its `task` prop (the `activeTask` of the
dashboard), `isRunning`, `sessionTime` in seconds, and `timerLive`, which tells
whether the interval whose handle is kept in `timerRef` is still registered. -/
structure TimeTracker where
  task : Task
  isRunning : Bool
  sessionTime : Nat
  timerLive : Bool
  deriving DecidableEq, Repr

/-- The state of `Dashboard`: the `tasks` array and, while `activeTask` is
non-null, the mounted `TimeTracker`. -/
structure Dashboard where
  tasks : List Task
  tracker : Option TimeTracker
  deriving DecidableEq, Repr

/-- The `activeTask` state of `Dashboard`. -/
def Dashboard.activeTask (d : Dashboard) : Option Task :=
  d.tracker.map TimeTracker.task

/-- The state of `useState([])` and `useState(null)` before any handler ran. -/
def Dashboard.initial : Dashboard :=
  { tasks := [], tracker := none }

/-! ## Dashboard handlers -/

/-- The object literal of `addTask`; `idClock` is the reading of `Date.now()`,
`createdClock` the reading of `new Date()`. -/
def newTask (idClock createdClock : Nat) : Task :=
  { id := idClock
    title := "New Task"
    description := ""
    category := "work"
    priority := "medium"
    status := "todo"
    timeSpent := 0
    createdAt := createdClock
    dueDate := none }

/-- `addTask`: `saveTasks([...tasks, newTask])`. -/
def addTask (d : Dashboard) (idClock createdClock : Nat) : Dashboard :=
  { d with tasks := d.tasks ++ [newTask idClock createdClock] }

/-- The array computed by `updateTask`:
`tasks.map(task => task.id === taskId ? { ...task, ...updates } : task)`. -/
def updateTasks (tasks : List Task) (taskId : Nat) (updates : Updates) : List Task :=
  tasks.map fun task => if task.id = taskId then spread task updates else task

/-- `updateTask`: stores the mapped array with `saveTasks`. -/
def updateTask (d : Dashboard) (taskId : Nat) (updates : Updates) : Dashboard :=
  { d with tasks := updateTasks d.tasks taskId updates }

/-- `updateTimeSpent`: `updateTask(taskId, { timeSpent })`. -/
def updateTimeSpent (d : Dashboard) (taskId : Nat) (timeSpent : Int) : Dashboard :=
  updateTask d taskId { timeSpent := some timeSpent }

/-- The array computed by `deleteTask`: `tasks.filter(task => task.id !== taskId)`. -/
def deleteTasks (tasks : List Task) (taskId : Nat) : List Task :=
  tasks.filter fun task => task.id ≠ taskId

/-- `deleteTask`: stores the filtered array and, when `activeTask` has the deleted
id, sets `activeTask` to `null`, which unmounts the `TimeTracker`. -/
def deleteTask (d : Dashboard) (taskId : Nat) : Dashboard :=
  { tasks := deleteTasks d.tasks taskId
    tracker :=
      match d.tracker with
      | some tr => if tr.task.id = taskId then none else some tr
      | none => none }

/-- `startTimer`: `setActiveTask(task)`.

* With no active task the `TimeTracker` mounts: `useState(false)`, `useState(0)`,
  then the mount effect calls `handleStart`, and the `[isRunning]` effect
  registers the interval.
* With an active task the component stays mounted and keeps its hooks.  When the
  id of the `task` prop changes, the `[task.id]` effect runs again: its clean-up
  clears the interval kept in `timerRef`, its body calls `handleStart`.  The
  `[isRunning]` effect registers a new interval only when `isRunning` changed,
  that is when the tracker was paused.
* With the same id no effect runs again. -/
def startTimer (d : Dashboard) (task : Task) : Dashboard :=
  match d.tracker with
  | none =>
      { d with tracker := some ⟨task, true, 0, true⟩ }
  | some tr =>
      if tr.task.id = task.id then
        { d with tracker := some { tr with task := task } }
      else
        { d with tracker := some ⟨task, true, tr.sessionTime, !tr.isRunning⟩ }

/-- `stopTimer`: `setActiveTask(null)`. -/
def stopTimer (d : Dashboard) : Dashboard :=
  { d with tracker := none }

/-! ## TimeTracker handlers -/

/-- The interval callback `setSessionTime(prev => prev + 1)`.  It fires only while
an interval is registered. -/
def tick (d : Dashboard) : Dashboard :=
  match d.tracker with
  | some tr =>
      if tr.timerLive then { d with tracker := some { tr with sessionTime := tr.sessionTime + 1 } }
      else d
  | none => d

/-- `handlePause`: `setIsRunning(false)`; the `[isRunning]` effect clears the interval. -/
def handlePause (d : Dashboard) : Dashboard :=
  match d.tracker with
  | some tr => { d with tracker := some { tr with isRunning := false, timerLive := false } }
  | none => d

/-- `handleStart` (the Resume button): `setIsRunning(true)`; the `[isRunning]`
effect registers the interval when `isRunning` changed, and leaves `timerRef`
alone otherwise. -/
def handleStart (d : Dashboard) : Dashboard :=
  match d.tracker with
  | some tr =>
      let timerLive := if tr.isRunning then tr.timerLive else true
      { d with tracker := some ⟨tr.task, true, tr.sessionTime, timerLive⟩ }
  | none => d

/-- The call of `onUpdateTime` made by `handleStop`, as `(taskId, timeSpent)`, or
`none` when neither branch is taken. -/
def handleStopUpdate (task : Task) (sessionTime : Nat) : Option (Nat × Int) :=
  let sessionMinutes := sessionTime / 60
  if sessionMinutes > 0 then
    some (task.id, task.timeSpent + (sessionMinutes : Int))
  else if sessionTime > 0 then
    some (task.id, task.timeSpent + 1)
  else
    none

/-- `handleStop`: the `onUpdateTime` call if any, then `onStop()`. -/
def handleStop (d : Dashboard) : Dashboard :=
  match d.tracker with
  | some tr =>
      match handleStopUpdate tr.task tr.sessionTime with
      | some (taskId, timeSpent) => stopTimer (updateTimeSpent d taskId timeSpent)
      | none => stopTimer d
  | none => d

/-- The minutes that `handleStop` adds to `task.timeSpent` in its call of
`onUpdateTime`; `0` when it makes no call. -/
def committedMinutes (task : Task) (sessionTime : Nat) : Int :=
  match handleStopUpdate task sessionTime with
  | some (_, timeSpent) => timeSpent - task.timeSpent
  | none => 0

/-! ## TaskCard -/

/-- The `editData` state of `TaskCard`. -/
structure EditData where
  title : String
  description : String
  category : String
  priority : String
  status : String
  dueDate : Option String
  deriving DecidableEq, Repr

/-- The initial `editData`, copied from the `task` prop. -/
def EditData.ofTask (task : Task) : EditData :=
  { title := task.title
    description := task.description
    category := task.category
    priority := task.priority
    status := task.status
    dueDate := task.dueDate }

/-- The `updates` object that `handleSave` passes: `editData` itself. -/
def EditData.toUpdates (e : EditData) : Updates :=
  { title := some e.title
    description := some e.description
    category := some e.category
    priority := some e.priority
    status := some e.status
    dueDate := some e.dueDate }

/-- `handleSave` of the card of `task`: `onUpdate(task.id, editData)`. -/
def handleSave (d : Dashboard) (task : Task) (editData : EditData) : Dashboard :=
  updateTask d task.id editData.toUpdates

/-- The `option` values of the category `select` of `TaskCard`. -/
def categoryOptions : List String := ["work", "personal", "study", "health"]

/-- The `option` values of the priority `select` of `TaskCard`. -/
def priorityOptions : List String := ["low", "medium", "high"]

/-- The `option` values of the status `select` of `TaskCard`. -/
def statusOptions : List String := ["todo", "in-progress", "completed"]

/-! ## Commit amount, as the specification words it -/

/-- The commit amount of the specification: floor division of the elapsed seconds
by 60, except that a positive elapsed time below one minute commits 1 minute. -/
def commitAmount (elapsed : Nat) : Nat :=
  if 0 < elapsed ∧ elapsed / 60 = 0 then 1 else elapsed / 60

/-! ## Completion of the store handlers -/

/-- The error kinds that the specification names for the task store. -/
inductive StoreError where
  | NotFound
  | ValidationError
  deriving DecidableEq, Repr

/-- How a call of `updateTask` completes.  Its body is the `map` and the call of
`saveTasks`: there is no `throw`, no test of `taskId` against the list and no test
of the values in `updates`, so every call completes with the mapped array stored. -/
def updateTaskResult (d : Dashboard) (taskId : Nat) (updates : Updates) :
    Except StoreError Dashboard :=
  .ok (updateTask d taskId updates)

/-- How a call of `deleteTask` completes.  Its body is the `filter`, the call of
`saveTasks` and the test of `activeTask`: there is no `throw` and no test of
`taskId` against the list, so every call completes with the filtered array stored. -/
def deleteTaskResult (d : Dashboard) (taskId : Nat) : Except StoreError Dashboard :=
  .ok (deleteTask d taskId)

/-- The category, priority and status of a task are among the values that the
selects of `TaskCard` offer. -/
def EnumsValid (t : Task) : Prop :=
  t.category ∈ categoryOptions ∧ t.priority ∈ priorityOptions ∧ t.status ∈ statusOptions

instance (t : Task) : Decidable (EnumsValid t) := by
  unfold EnumsValid
  infer_instance

/-- Every value that `updates` assigns to category, priority or status is among
the values that the selects of `TaskCard` offer. -/
def UpdatesValid (u : Updates) : Prop :=
  (∀ c, u.category = some c → c ∈ categoryOptions) ∧
  (∀ p, u.priority = some p → p ∈ priorityOptions) ∧
  (∀ s, u.status = some s → s ∈ statusOptions)

/-! ## Timer events -/

/-- What can happen to a mounted `TimeTracker` short of Stop: the interval
callback, the Pause button, the Resume button. -/
inductive TimerEvent where
  | tick
  | pause
  | resume
  deriving DecidableEq, Repr

/-- The handler that an event runs. -/
def TimerEvent.apply : TimerEvent → Dashboard → Dashboard
  | .tick => ProductivityTracker.tick
  | .pause => handlePause
  | .resume => handleStart

/-- The events of a list, run from left to right. -/
def runEvents (d : Dashboard) (events : List TimerEvent) : Dashboard :=
  events.foldl (fun s e => e.apply s) d

/-- The number of ticks of an event list that fall while the session is Running,
in the words of the specification: `pause` enters Paused, `resume` enters Running,
and `running` tells the mode before the first event. -/
def ticksWhileRunning : Bool → List TimerEvent → Nat
  | _, [] => 0
  | running, .tick :: events => (if running then 1 else 0) + ticksWhileRunning running events
  | _, .pause :: events => ticksWhileRunning false events
  | _, .resume :: events => ticksWhileRunning true events

/-! ## Runs of the application -/

/-- The states the application reaches from the empty task list.  Each step is one
handler call as the components make it: the cards are rendered from `tasks`, so
Save, Delete and Start Timer are called for a task of the current list; the clock
readings of `addTask` and the contents of `editData` are arbitrary. -/
inductive Reachable : Dashboard → Prop
  | initial : Reachable Dashboard.initial
  | addTask (d : Dashboard) (idClock createdClock : Nat) :
      Reachable d → Reachable (addTask d idClock createdClock)
  | save (d : Dashboard) (task : Task) (editData : EditData) :
      Reachable d → task ∈ d.tasks → Reachable (handleSave d task editData)
  | deleteTask (d : Dashboard) (task : Task) :
      Reachable d → task ∈ d.tasks → Reachable (deleteTask d task.id)
  | startTimer (d : Dashboard) (task : Task) :
      Reachable d → task ∈ d.tasks → Reachable (startTimer d task)
  | tick (d : Dashboard) : Reachable d → Reachable (tick d)
  | pause (d : Dashboard) : Reachable d → Reachable (handlePause d)
  | resume (d : Dashboard) : Reachable d → Reachable (handleStart d)
  | stop (d : Dashboard) : Reachable d → Reachable (handleStop d)

/-- The timer holds a copy of a stored task: some task of the list has the id and
the `timeSpent` of the `task` prop of the mounted `TimeTracker`. -/
def CopyStored (d : Dashboard) : Prop :=
  ∀ tr, d.tracker = some tr →
    ∃ t ∈ d.tasks, t.id = tr.task.id ∧ t.timeSpent = tr.task.timeSpent

/-! ## Sample runs -/

/-- A store with one task, created at clock reading 5; no timer. -/
def oneTaskStore : Dashboard :=
  addTask Dashboard.initial 5 5

/-- A run with one task: created at clock reading 5, timer started from its card,
one tick delivered. -/
def oneTaskRun : Dashboard :=
  tick (startTimer (addTask Dashboard.initial 5 5) (newTask 5 5))

/-- A run in which the copy held by the timer differs from a stored task of the
same id.

1. A task is created at clock reading 5, its timer started, 120 ticks delivered.
2. At clock reading 7 a second task is created and its timer started; the
   `TimeTracker` stays mounted with `sessionTime` 120, and Stop commits 2 minutes
   to the second task.
3. The clock still reads 7 when a third task is created: it has id 7 and
   `timeSpent` 0.  Its timer is started and one tick delivered. -/
def staleRun : Dashboard :=
  let d1 := startTimer (addTask Dashboard.initial 5 5) (newTask 5 5)
  let d2 := startTimer (addTask (tick^[120] d1) 7 7) (newTask 7 7)
  let d3 := startTimer (addTask (handleStop d2) 7 7) (newTask 7 7)
  tick d3

/-- A run with two tasks, created at clock readings 5 and 7: the timer of the
first is started and 125 ticks are delivered. -/
def switchRun : Dashboard :=
  tick^[125] (startTimer (addTask (addTask Dashboard.initial 5 5) 7 7) (newTask 5 5))

/-! ## Sequences of store calls -/

/-- How a call of `addTask` completes.  Its body is the object literal, the array
spread and the call of `saveTasks`: there is no `throw` and no early `return`. -/
def addTaskResult (d : Dashboard) (idClock createdClock : Nat) :
    Except StoreError Dashboard :=
  .ok (addTask d idClock createdClock)

/-- A call of the task store: `addTask` with its two clock readings, or
`deleteTask` with an id. -/
inductive StoreCall where
  | create (idClock createdClock : Nat)
  | delete (taskId : Nat)
  deriving DecidableEq, Repr

/-- The handler that a store call runs. -/
def StoreCall.apply : StoreCall → Dashboard → Dashboard
  | .create idClock createdClock, d => addTask d idClock createdClock
  | .delete taskId, d => deleteTask d taskId

/-- The calls of a list, run from left to right. -/
def runCalls (d : Dashboard) (calls : List StoreCall) : Dashboard :=
  calls.foldl (fun s c => c.apply s) d

/-- The number of creates of a call list. -/
def createCount : List StoreCall → Nat
  | [] => 0
  | .create _ _ :: calls => createCount calls + 1
  | .delete _ :: calls => createCount calls

/-- The number of deletes of a call list that reference an id present in the store
at the time of the call, in the words of the specification; `d` is the state
before the first call. -/
def successfulDeletes : Dashboard → List StoreCall → Nat
  | _, [] => 0
  | d, .create idClock createdClock :: calls =>
      successfulDeletes (addTask d idClock createdClock) calls
  | d, .delete taskId :: calls =>
      (if taskId ∈ d.tasks.map Task.id then 1 else 0)
        + successfulDeletes (deleteTask d taskId) calls

/-- Every create of the call list reads a clock value that is the id of no task in
the store at the time of the call; `d` is the state before the first call. -/
def FreshCreates : Dashboard → List StoreCall → Prop
  | _, [] => True
  | d, .create idClock createdClock :: calls =>
      idClock ∉ d.tasks.map Task.id ∧ FreshCreates (addTask d idClock createdClock) calls
  | d, .delete taskId :: calls => FreshCreates (deleteTask d taskId) calls

/-- At every position of `old`, `new` holds a task whose `timeSpent` is not less. -/
def NoDecrease (old new : List Task) : Prop :=
  ∀ (i : Nat) (t : Task), old[i]? = some t →
    ∃ t2 : Task, new[i]? = some t2 ∧ t.timeSpent ≤ t2.timeSpent

/-! ## Analytics -/

/-- A value held by a statistics object: a number, or the text that `+ 1` makes of
a member inherited from `Object.prototype`, which is the string conversion of the
member named `member` followed by `ones` characters `1`.  With `ones` 0 it stands
for the member itself. -/
inductive StatValue where
  | count (n : Nat)
  | text (member : String) (ones : Nat)
  deriving DecidableEq, Repr

/-- The names of the members that a plain object `{}` inherits from
`Object.prototype`. -/
def inheritedNames : List String :=
  ["constructor", "__defineGetter__", "__defineSetter__", "hasOwnProperty",
    "__lookupGetter__", "__lookupSetter__", "isPrototypeOf", "propertyIsEnumerable",
    "toString", "valueOf", "__proto__", "toLocaleString"]

/-- The string conversion of a value; the inherited members are functions, printed
as V8 prints them, except `__proto__`, which is the prototype object. -/
def StatValue.render : StatValue → String
  | .count n => toString n
  | .text member ones =>
      (if member = "__proto__" then "[object Object]"
       else if member = "constructor" then "function Object() \x7b [native code] \x7d"
       else "function " ++ member ++ "() \x7b [native code] \x7d")
        ++ String.mk (List.replicate ones '1')

/-- The own property `key` of an object whose own properties are the pairs of the
list, in insertion order; `none` when it has none. -/
def statsOwn : List (String × StatValue) → String → Option StatValue
  | [], _ => none
  | (k, v) :: rest, key => if k = key then some v else statsOwn rest key

/-- The value of `acc[key]`: the own property, else the inherited member of that
name, else `undefined`, for which `none` stands. -/
def statsGet (acc : List (String × StatValue)) (key : String) : Option StatValue :=
  match statsOwn acc key with
  | some v => some v
  | none => if key ∈ inheritedNames then some (.text key 0) else none

/-- The definition of the own property `key`: an own property is overwritten in
place, a new one is added after the others. -/
def statsSet : List (String × StatValue) → String → StatValue → List (String × StatValue)
  | [], key, value => [(key, value)]
  | (k, v) :: rest, key, value =>
      if k = key then (k, value) :: rest else (k, v) :: statsSet rest key value

/-- The body of the three `reduce` callbacks: `acc[key] = (acc[key] || 0) + 1`.
`undefined` and 0 give 1, a number `n` gives `n + 1`, an inherited member or a
text is truthy and `+ 1` appends the character `1` to its string conversion.  The
assignment to `__proto__` goes to the inherited setter, which ignores a value that
is no object, so it defines no own property. -/
def countInto (acc : List (String × StatValue)) (key : String) :
    List (String × StatValue) :=
  let value :=
    match statsGet acc key with
    | none => StatValue.count 1
    | some (.count n) => StatValue.count (n + 1)
    | some (.text member ones) => StatValue.text member (ones + 1)
  if key = "__proto__" then acc else statsSet acc key value

/-- `categoryStats`: the `reduce` over `task.category`, from `{}`. -/
def categoryStats (tasks : List Task) : List (String × StatValue) :=
  tasks.foldl (fun acc task => countInto acc task.category) []

/-- `priorityStats`: the `reduce` over `task.priority`, from `{}`. -/
def priorityStats (tasks : List Task) : List (String × StatValue) :=
  tasks.foldl (fun acc task => countInto acc task.priority) []

/-- `statusStats`: the `reduce` over `task.status`, from `{}`. -/
def statusStats (tasks : List Task) : List (String × StatValue) :=
  tasks.foldl (fun acc task => countInto acc task.status) []

/-- `totalTimeSpent`: `tasks.reduce((acc, task) => acc + task.timeSpent, 0)`. -/
def totalTimeSpent (tasks : List Task) : Int :=
  tasks.foldl (fun acc task => acc + task.timeSpent) 0

/-- `avgTimePerTask`: `tasks.length > 0 ? totalTimeSpent / tasks.length : 0`, the
quotient taken exactly. -/
def avgTimePerTask (tasks : List Task) : ℚ :=
  if tasks.length > 0 then (totalTimeSpent tasks : ℚ) / (tasks.length : ℚ) else 0

/-- `completionRate`:
`tasks.length > 0 ? (statusStats.completed || 0) / tasks.length * 100 : 0`, the
quotient of numbers taken exactly; `none` stands for `NaN`, which the division
gives for a text. -/
def completionRate (tasks : List Task) : Option ℚ :=
  if tasks.length > 0 then
    match statsGet (statusStats tasks) "completed" with
    | none => some ((0 : ℚ) / (tasks.length : ℚ) * 100)
    | some (.count n) => some ((n : ℚ) / (tasks.length : ℚ) * 100)
    | some (.text _ _) => none
  else some 0

/-- `weeklyTasks`: the number of tasks that pass
`new Date(task.createdAt) >= thisWeek`, where `thisWeek` is `now` less
`7 * 24 * 60 * 60 * 1000` milliseconds. -/
def weeklyTasks (tasks : List Task) (now : Nat) : Nat :=
  (tasks.filter fun task =>
    (now : Int) - 7 * 24 * 60 * 60 * 1000 ≤ (task.createdAt : Int)).length

/-- The comparison `a > b` of two values read from a statistics object: two numbers
are compared as numbers and two texts as strings; in every other case a side is
`undefined` or a text beside a number, which converts to `NaN` as it is no numeral,
and the comparison is `false`. -/
def jsGreater : Option StatValue → Option StatValue → Bool
  | some (.count a), some (.count b) => decide (a > b)
  | some (.text m k), some (.text m2 k2) =>
      decide ((StatValue.text m2 k2).render < (StatValue.text m k).render)
  | _, _ => false

/-- The condition of the workload recommendation:
`analytics.priorityStats.high > analytics.priorityStats.low`. -/
def priorityImbalance (tasks : List Task) : Bool :=
  jsGreater (statsGet (priorityStats tasks) "high") (statsGet (priorityStats tasks) "low")

/-- The snapshot of the specification's example: a completed task with 30 minutes
and a to-do task with none. -/
def sampleSnapshot : List Task :=
  [{ newTask 1 1 with status := "completed", timeSpent := 30 }, newTask 2 2]

/-- The number that a value is; a text is none and gives 0. -/
def valueCount : StatValue → Nat
  | .count n => n
  | .text _ _ => 0

/-- The sum of the numbers held by an object. -/
def statsTotal (acc : List (String × StatValue)) : Nat :=
  (acc.map fun p => valueCount p.2).sum

/-- The object `stats` is the grouped count of `tasks` by `field`: it has a key
exactly for the values that some task has, each key once, the value under a key is
the number of tasks with that value, and the values sum to the number of tasks. -/
def CountsBy (field : Task → String) (stats : List (String × StatValue))
    (tasks : List Task) : Prop :=
  (∀ key, key ∈ stats.map Prod.fst ↔ ∃ t ∈ tasks, field t = key) ∧
  (∀ key, statsOwn stats key =
    if tasks.countP (fun t => field t = key) = 0 then none
    else some (.count (tasks.countP (fun t => field t = key)))) ∧
  (stats.map Prod.fst).Nodup ∧
  statsTotal stats = tasks.length

/-- No status, category or priority of the tasks is the name of a member that a
plain object inherits. -/
def PlainValues (tasks : List Task) : Prop :=
  ∀ t ∈ tasks, t.status ∉ inheritedNames ∧ t.category ∉ inheritedNames ∧
    t.priority ∉ inheritedNames

instance (tasks : List Task) : Decidable (PlainValues tasks) := by
  unfold PlainValues
  infer_instance

/-- The number of tasks created within the trailing 7-day window that ends at
`now`, in the words of the specification. -/
def weeklyWindowCount (tasks : List Task) (now : Nat) : Nat :=
  tasks.countP fun task =>
    (now : Int) - 7 * 24 * 60 * 60 * 1000 ≤ (task.createdAt : Int) ∧ task.createdAt ≤ now

/-- The milliseconds of one day. -/
def dayMs : Nat := 24 * 60 * 60 * 1000

/-! ## Export -/

/-- The `filteredTasks` of `handleExport` for the selected `exportType`. -/
def filteredTasks (tasks : List Task) (exportType : String) : List Task :=
  if exportType = "completed" then
    tasks.filter fun task => task.status = "completed"
  else if exportType = "pending" then
    tasks.filter fun task => task.status ≠ "completed"
  else tasks

/-- What a call of `handleExport` does: the destructive toast "No tasks to export"
followed by `return`, or the call of one of the two serializers on the filtered
tasks. -/
inductive ExportOutcome where
  | noTasks
  | csv (data : List Task)
  | pdf (data : List Task)
  deriving DecidableEq, Repr

/-- `handleExport` for the selected `exportType` and `exportFormat`. -/
def handleExport (tasks : List Task) (exportType exportFormat : String) : ExportOutcome :=
  let data := filteredTasks tasks exportType
  if data.length = 0 then .noTasks
  else if exportFormat = "csv" then .csv data
  else .pdf data

/-! ## Export serializers -/

/-- The method `join` of an array of strings: the elements in order, with `sep`
between two neighbours. -/
def jsJoin (sep : String) : List String → String
  | [] => ""
  | [a] => a
  | a :: b :: rest => a ++ sep ++ jsJoin sep (b :: rest)

/-- The `headers` array of `exportToCSV`. -/
def csvHeaders : List String :=
  ["Title", "Description", "Category", "Priority", "Status", "Time Spent (minutes)",
    "Created At"]

/-- The record that `exportToCSV` builds for one task: the seven values joined
with a comma.  `toLocaleDateString` renders `new Date(task.createdAt)` in the
locale of the browser; `task.description || ''` is the description itself, the
empty string being the only falsy string. -/
def csvRow (toLocaleDateString : Nat → String) (task : Task) : String :=
  jsJoin ","
    ["\"" ++ task.title ++ "\"",
     "\"" ++ (if task.description = "" then "" else task.description) ++ "\"",
     task.category,
     task.priority,
     task.status,
     toString task.timeSpent,
     toLocaleDateString task.createdAt]

/-- The `csvContent` of `exportToCSV`: the joined headers and the records, joined
with a newline. -/
def csvContent (toLocaleDateString : Nat → String) (data : List Task) : String :=
  jsJoin "\n" (jsJoin "," csvHeaders :: data.map (csvRow toLocaleDateString))

/-- The lines of a text, as `split` at the newline character gives them. -/
def splitLines : List Char → List (List Char)
  | [] => [[]]
  | c :: cs =>
      if c = '\n' then [] :: splitLines cs
      else
        match splitLines cs with
        | line :: lines => (c :: line) :: lines
        | [] => [[c]]

/-- `formatTime` of `ExportModal`: `Math.floor(minutes / 60)` and `minutes % 60`, the
remainder having the sign of `minutes`, in the template `${hours}h ${mins}m`. -/
def formatTime (minutes : Int) : String :=
  let hours := Int.fdiv minutes 60
  let mins := Int.tmod minutes 60
  toString hours ++ "h " ++ toString mins ++ "m"

/-- What `exportToPDF` hands to the PDF library: the strings of its `doc.text`
calls in order, and the `head` and `body` of its `doc.autoTable` call. -/
structure Report where
  texts : List String
  head : List (List String)
  body : List (List String)
  deriving DecidableEq, Repr

/-- `exportToPDF`; `exportDate` is the rendering of
`new Date().toLocaleDateString()`. -/
def exportToPDF (exportDate : String) (data : List Task) : Report :=
  let totalTime := data.foldl (fun acc task => acc + task.timeSpent) 0
  { texts :=
      ["TaskFlow Pro - Task Report",
       "Export Date: " ++ exportDate,
       "Total Tasks: " ++ toString data.length,
       "Total Time Tracked: " ++ formatTime totalTime]
    head := [["Title", "Category", "Priority", "Status", "Time Spent"]]
    body := data.map fun task =>
      [task.title, task.category, task.priority, task.status, formatTime task.timeSpent] }

/-- A task whose description, typed into the text area of its card, has two
lines. -/
def twoLineTask : Task :=
  { newTask 1 1 with description := "first\nsecond" }

/-! ## Lemmas on the handlers -/

theorem handleStopUpdate_eq (task : Task) (s : Nat) :
    handleStopUpdate task s =
      if s = 0 then none else some (task.id, task.timeSpent + (commitAmount s : Int)) := by
  unfold handleStopUpdate commitAmount
  by_cases h0 : s = 0
  · subst h0; simp
  · by_cases h60 : s / 60 = 0
    · have hs : 0 < s := Nat.pos_of_ne_zero h0
      simp [h0, h60, hs]
    · have hpos : 0 < s / 60 := Nat.pos_of_ne_zero h60
      simp [h0, h60, hpos]

theorem commitAmount_eq_zero_iff (s : Nat) : commitAmount s = 0 ↔ s = 0 := by
  unfold commitAmount
  constructor
  · intro h
    by_contra hs
    have hpos : 0 < s := Nat.pos_of_ne_zero hs
    by_cases h60 : s / 60 = 0
    · simp [hpos, h60] at h
    · simp [h60] at h
  · intro h
    subst h
    simp

theorem spread_timeSpent (t : Task) (v : Int) :
    spread t { timeSpent := some v } = { t with timeSpent := v } := by
  cases t
  rfl

theorem spread_toUpdates_id (t : Task) (e : EditData) :
    (spread t e.toUpdates).id = t.id ∧ (spread t e.toUpdates).timeSpent = t.timeSpent ∧
      (spread t e.toUpdates).createdAt = t.createdAt := by
  cases t
  exact ⟨rfl, rfl, rfl⟩

/-- The array stored by `handleStop`, in terms of the copy held by the tracker. -/
theorem handleStop_tasks (d : Dashboard) (tr : TimeTracker) (h : d.tracker = some tr) :
    (handleStop d).tracker = none ∧
    (handleStop d).tasks =
      if tr.sessionTime = 0 then d.tasks
      else d.tasks.map fun t =>
        if t.id = tr.task.id then
          { t with timeSpent := tr.task.timeSpent + (commitAmount tr.sessionTime : Int) }
        else t := by
  unfold handleStop
  rw [h]
  simp only [handleStopUpdate_eq]
  by_cases h0 : tr.sessionTime = 0
  · simp [h0, stopTimer]
  · simp only [h0, if_false, stopTimer, updateTimeSpent, updateTask, updateTasks,
      spread_timeSpent, and_self]

theorem copyStored_of_reachable (d : Dashboard) (h : Reachable d) : CopyStored d := by
  induction h with
  | initial => intro tr htr; simp [Dashboard.initial] at htr
  | addTask d a b _ ih =>
      intro tr htr
      obtain ⟨t, ht, h1, h2⟩ := ih tr htr
      exact ⟨t, List.mem_append_left _ ht, h1, h2⟩
  | save d task e _ _ ih =>
      intro tr htr
      obtain ⟨t, ht, h1, h2⟩ := ih tr htr
      refine ⟨if t.id = task.id then spread t e.toUpdates else t, ?_, ?_, ?_⟩
      · exact List.mem_map.mpr ⟨t, ht, rfl⟩
      · split
        · rw [(spread_toUpdates_id t e).1]; exact h1
        · exact h1
      · split
        · rw [(spread_toUpdates_id t e).2.1]; exact h2
        · exact h2
  | deleteTask d task _ _ ih =>
      intro tr htr
      cases hd : d.tracker with
      | none => simp [ProductivityTracker.deleteTask, hd] at htr
      | some tr0 =>
          by_cases hid : tr0.task.id = task.id
          · simp [ProductivityTracker.deleteTask, hd, hid] at htr
          · simp only [ProductivityTracker.deleteTask, hd, hid, if_false,
              Option.some.injEq] at htr
            subst htr
            obtain ⟨t, ht, h1, h2⟩ := ih tr0 hd
            refine ⟨t, ?_, h1, h2⟩
            simp only [ProductivityTracker.deleteTask, deleteTasks, List.mem_filter]
            refine ⟨ht, ?_⟩
            simp [h1, hid]
  | startTimer d task _ hmem _ =>
      intro tr htr
      have htask : tr.task = task := by
        cases hd : d.tracker with
        | none =>
            simp only [ProductivityTracker.startTimer, hd, Option.some.injEq] at htr
            rw [← htr]
        | some tr0 =>
            by_cases hid : tr0.task.id = task.id
            · simp only [ProductivityTracker.startTimer, hd, hid, if_true,
                Option.some.injEq] at htr
              rw [← htr]
            · simp only [ProductivityTracker.startTimer, hd, hid, if_false,
                Option.some.injEq] at htr
              rw [← htr]
      have htasks : (ProductivityTracker.startTimer d task).tasks = d.tasks := by
        unfold ProductivityTracker.startTimer
        cases d.tracker with
        | none => rfl
        | some tr0 => dsimp only; split <;> rfl
      rw [htasks, htask]
      exact ⟨task, hmem, rfl, rfl⟩
  | tick d _ ih =>
      intro tr htr
      cases hd : d.tracker with
      | none => simp [ProductivityTracker.tick, hd] at htr
      | some tr0 =>
          obtain ⟨t, ht, h1, h2⟩ := ih tr0 hd
          by_cases hl : tr0.timerLive = true
          · simp only [ProductivityTracker.tick, hd, hl, if_true, Option.some.injEq] at htr
            subst htr
            exact ⟨t, by simpa [ProductivityTracker.tick, hd, hl] using ht, h1, h2⟩
          · have htick : ProductivityTracker.tick d = d := by
              simp [ProductivityTracker.tick, hd, hl]
            rw [htick] at htr ⊢
            exact ih tr htr
  | pause d _ ih =>
      intro tr htr
      cases hd : d.tracker with
      | none => simp [handlePause, hd] at htr
      | some tr0 =>
          obtain ⟨t, ht, h1, h2⟩ := ih tr0 hd
          simp only [handlePause, hd, Option.some.injEq] at htr
          subst htr
          exact ⟨t, by simpa [handlePause, hd] using ht, h1, h2⟩
  | resume d _ ih =>
      intro tr htr
      cases hd : d.tracker with
      | none => simp [handleStart, hd] at htr
      | some tr0 =>
          obtain ⟨t, ht, h1, h2⟩ := ih tr0 hd
          simp only [handleStart, hd, Option.some.injEq] at htr
          subst htr
          exact ⟨t, by simpa [handleStart, hd] using ht, h1, h2⟩
  | stop d _ _ =>
      intro tr htr
      cases hd : d.tracker with
      | none => simp [handleStop, hd] at htr
      | some tr0 =>
          rw [(handleStop_tasks d tr0 hd).1] at htr
          cases htr

theorem reachable_iterate_tick (d : Dashboard) (h : Reachable d) (n : Nat) :
    Reachable (tick^[n] d) := by
  induction n with
  | zero => exact h
  | succ n ih =>
      rw [Function.iterate_succ_apply']
      exact Reachable.tick _ ih

theorem reachable_oneTaskRun : Reachable oneTaskRun :=
  Reachable.tick _ (Reachable.startTimer _ _ (Reachable.addTask _ 5 5 Reachable.initial)
    (by decide))

set_option maxRecDepth 100000 in
theorem reachable_staleRun : Reachable staleRun := by
  have h1 : Reachable (startTimer (addTask Dashboard.initial 5 5) (newTask 5 5)) :=
    Reachable.startTimer _ _ (Reachable.addTask _ 5 5 Reachable.initial) (by decide)
  have h2 := Reachable.addTask _ 7 7 (reachable_iterate_tick _ h1 120)
  have h3 := Reachable.startTimer _ (newTask 7 7) h2
    (List.mem_append_right _ (List.mem_singleton.mpr rfl))
  have h4 := Reachable.addTask _ 7 7 (Reachable.stop _ h3)
  have h5 := Reachable.startTimer _ (newTask 7 7) h4
    (List.mem_append_right _ (List.mem_singleton.mpr rfl))
  exact Reachable.tick _ h5

/-- A mounted tracker whose interval is registered exactly while `isRunning`
counts the ticks that fall while Running, and stays such a tracker. -/
theorem runEvents_tracker (events : List TimerEvent) :
    ∀ (d : Dashboard) (tr : TimeTracker), d.tracker = some tr → tr.timerLive = tr.isRunning →
      ∃ tr2, (runEvents d events).tracker = some tr2 ∧ tr2.task = tr.task ∧
        tr2.timerLive = tr2.isRunning ∧
        tr2.sessionTime = tr.sessionTime + ticksWhileRunning tr.isRunning events ∧
        (runEvents d events).tasks = d.tasks := by
  induction events with
  | nil =>
      intro d tr h hl
      exact ⟨tr, h, rfl, hl, by simp [ticksWhileRunning], rfl⟩
  | cons e events ih =>
      intro d tr h hl
      cases e with
      | tick =>
          cases hrun : tr.isRunning with
          | true =>
              have hlive : tr.timerLive = true := by rw [hl, hrun]
              obtain ⟨tr2, h1, h2, h3, h4, h5⟩ :=
                ih (ProductivityTracker.tick d)
                  ⟨tr.task, tr.isRunning, tr.sessionTime + 1, tr.timerLive⟩
                  (by simp [ProductivityTracker.tick, h, hlive]) hl
              refine ⟨tr2, h1, h2, h3, ?_, ?_⟩
              · rw [h4]; simp only [ticksWhileRunning, hrun, if_true]; omega
              · exact h5.trans (by simp [ProductivityTracker.tick, h, hlive])
          | false =>
              have hlive : tr.timerLive = false := by rw [hl, hrun]
              have htick : ProductivityTracker.tick d = d := by
                simp [ProductivityTracker.tick, h, hlive]
              obtain ⟨tr2, h1, h2, h3, h4, h5⟩ := ih d tr h hl
              refine ⟨tr2, ?_, h2, h3, ?_, ?_⟩
              · simpa [runEvents, TimerEvent.apply, htick] using h1
              · rw [h4]; simp [ticksWhileRunning, hrun]
              · simpa [runEvents, TimerEvent.apply, htick] using h5
      | pause =>
          obtain ⟨tr2, h1, h2, h3, h4, h5⟩ :=
            ih (handlePause d) ⟨tr.task, false, tr.sessionTime, false⟩
              (by simp [handlePause, h]) rfl
          refine ⟨tr2, h1, h2, h3, ?_, ?_⟩
          · rw [h4]; simp [ticksWhileRunning]
          · exact h5.trans (by simp [handlePause, h])
      | resume =>
          have hlive : (if tr.isRunning then tr.timerLive else true) = true := by
            cases hrun : tr.isRunning with
            | true => simp [hl, hrun]
            | false => simp
          obtain ⟨tr2, h1, h2, h3, h4, h5⟩ :=
            ih (handleStart d) ⟨tr.task, true, tr.sessionTime, true⟩
              (by simp [handleStart, h, hlive]) rfl
          refine ⟨tr2, h1, h2, h3, ?_, ?_⟩
          · rw [h4]; simp [ticksWhileRunning]
          · exact h5.trans (by simp [handleStart, h])

theorem updateTasks_absent (tasks : List Task) (taskId : Nat) (updates : Updates)
    (h : ∀ t ∈ tasks, t.id ≠ taskId) : updateTasks tasks taskId updates = tasks := by
  unfold updateTasks
  conv_rhs => rw [← List.map_id tasks]
  apply List.map_congr_left
  intro t ht
  simp [h t ht]

theorem deleteTasks_absent (tasks : List Task) (taskId : Nat)
    (h : ∀ t ∈ tasks, t.id ≠ taskId) : deleteTasks tasks taskId = tasks := by
  unfold deleteTasks
  apply List.filter_eq_self.mpr
  intro t ht
  simp [h t ht]

theorem updateTasks_keeps_id_createdAt (tasks : List Task) (taskId : Nat) (updates : Updates)
    (hid : updates.id = none) (hc : updates.createdAt = none) :
    (updateTasks tasks taskId updates).map (fun t => (t.id, t.createdAt))
      = tasks.map (fun t => (t.id, t.createdAt)) := by
  unfold updateTasks
  rw [List.map_map]
  apply List.map_congr_left
  intro t _
  by_cases h : t.id = taskId
  · simp [h, spread, hid, hc]
  · simp [h]

/-! ## Lemmas on the frame of the handlers -/

theorem startTimer_tasks (d : Dashboard) (task : Task) : (startTimer d task).tasks = d.tasks := by
  unfold startTimer
  cases d.tracker with
  | none => rfl
  | some tr => dsimp only; split <;> rfl

theorem startTimer_tracker (d : Dashboard) (task : Task) (tr : TimeTracker)
    (h : (startTimer d task).tracker = some tr) : tr.task = task := by
  unfold startTimer at h
  cases hd : d.tracker with
  | none =>
      simp only [hd, Option.some.injEq] at h
      rw [← h]
  | some tr0 =>
      by_cases hid : tr0.task.id = task.id
      · simp only [hd, hid, if_true, Option.some.injEq] at h
        rw [← h]
      · simp only [hd, hid, if_false, Option.some.injEq] at h
        rw [← h]

theorem tick_frame (d : Dashboard) :
    (tick d).tasks = d.tasks ∧
    ∀ tr, (tick d).tracker = some tr → ∃ tr0, d.tracker = some tr0 ∧ tr.task = tr0.task := by
  unfold tick
  cases hd : d.tracker with
  | none => exact ⟨rfl, fun tr h => by rw [hd] at h; cases h⟩
  | some tr0 =>
      by_cases hl : tr0.timerLive = true
      · simp only [hl, if_true, Option.some.injEq]
        exact ⟨trivial, fun tr h => ⟨tr0, rfl, by rw [← h]⟩⟩
      · simp only [hl]
        refine ⟨rfl, fun tr h => ⟨tr0, rfl, ?_⟩⟩
        simp only [Bool.false_eq_true, if_false] at h
        rw [hd] at h
        cases h
        rfl

theorem handlePause_frame (d : Dashboard) :
    (handlePause d).tasks = d.tasks ∧
    ∀ tr, (handlePause d).tracker = some tr →
      ∃ tr0, d.tracker = some tr0 ∧ tr.task = tr0.task := by
  unfold handlePause
  cases hd : d.tracker with
  | none => exact ⟨rfl, fun tr h => by rw [hd] at h; cases h⟩
  | some tr0 =>
      simp only [Option.some.injEq]
      exact ⟨trivial, fun tr h => ⟨tr0, rfl, by rw [← h]⟩⟩

theorem handleStart_frame (d : Dashboard) :
    (handleStart d).tasks = d.tasks ∧
    ∀ tr, (handleStart d).tracker = some tr →
      ∃ tr0, d.tracker = some tr0 ∧ tr.task = tr0.task := by
  unfold handleStart
  cases hd : d.tracker with
  | none => exact ⟨rfl, fun tr h => by rw [hd] at h; cases h⟩
  | some tr0 =>
      simp only [Option.some.injEq]
      exact ⟨trivial, fun tr h => ⟨tr0, rfl, by rw [← h]⟩⟩

theorem deleteTask_tracker (d : Dashboard) (taskId : Nat) (tr : TimeTracker)
    (h : (deleteTask d taskId).tracker = some tr) : d.tracker = some tr := by
  unfold deleteTask at h
  cases hd : d.tracker with
  | none => simp [hd] at h
  | some tr0 =>
      by_cases hid : tr0.task.id = taskId
      · simp [hd, hid] at h
      · simp only [hd, hid, if_false] at h
        exact h

theorem handleSave_timeSpent (d : Dashboard) (task : Task) (e : EditData) :
    (handleSave d task e).tasks.map Task.timeSpent = d.tasks.map Task.timeSpent := by
  simp only [handleSave, updateTask, updateTasks, List.map_map]
  apply List.map_congr_left
  intro t _
  by_cases h : t.id = task.id
  · simp [h, (spread_toUpdates_id t e).2.1]
  · simp [h]

theorem handleStop_idle (d : Dashboard) (h : d.tracker = none) : handleStop d = d := by
  simp [handleStop, h]

/-- In a reachable state no stored `timeSpent` is negative, nor is the one of the
copy held by the timer. -/
theorem nonneg_of_reachable (d : Dashboard) (h : Reachable d) :
    (∀ t ∈ d.tasks, 0 ≤ t.timeSpent) ∧ (∀ tr, d.tracker = some tr → 0 ≤ tr.task.timeSpent) := by
  induction h with
  | initial => exact ⟨fun t ht => by simp [Dashboard.initial] at ht,
      fun tr htr => by simp [Dashboard.initial] at htr⟩
  | addTask d a b _ ih =>
      refine ⟨fun t ht => ?_, ih.2⟩
      simp only [ProductivityTracker.addTask, List.mem_append, List.mem_singleton] at ht
      rcases ht with ht | ht
      · exact ih.1 t ht
      · rw [ht]; simp [newTask]
  | save d task e _ _ ih =>
      refine ⟨fun t ht => ?_, ih.2⟩
      simp only [handleSave, updateTask, updateTasks, List.mem_map] at ht
      obtain ⟨t0, ht0, rfl⟩ := ht
      split
      · rw [(spread_toUpdates_id t0 e).2.1]; exact ih.1 t0 ht0
      · exact ih.1 t0 ht0
  | deleteTask d task _ _ ih =>
      refine ⟨fun t ht => ?_, fun tr htr => ih.2 tr (deleteTask_tracker d task.id tr htr)⟩
      simp only [ProductivityTracker.deleteTask, deleteTasks, List.mem_filter] at ht
      exact ih.1 t ht.1
  | startTimer d task _ hmem ih =>
      refine ⟨fun t ht => ih.1 t (by rwa [startTimer_tasks] at ht), fun tr htr => ?_⟩
      rw [startTimer_tracker d task tr htr]
      exact ih.1 task hmem
  | tick d _ ih =>
      refine ⟨fun t ht => ih.1 t (by rwa [(tick_frame d).1] at ht), fun tr htr => ?_⟩
      obtain ⟨tr0, h0, h1⟩ := (tick_frame d).2 tr htr
      rw [h1]; exact ih.2 tr0 h0
  | pause d _ ih =>
      refine ⟨fun t ht => ih.1 t (by rwa [(handlePause_frame d).1] at ht), fun tr htr => ?_⟩
      obtain ⟨tr0, h0, h1⟩ := (handlePause_frame d).2 tr htr
      rw [h1]; exact ih.2 tr0 h0
  | resume d _ ih =>
      refine ⟨fun t ht => ih.1 t (by rwa [(handleStart_frame d).1] at ht), fun tr htr => ?_⟩
      obtain ⟨tr0, h0, h1⟩ := (handleStart_frame d).2 tr htr
      rw [h1]; exact ih.2 tr0 h0
  | stop d _ ih =>
      cases hd : d.tracker with
      | none => rw [handleStop_idle d hd]; exact ih
      | some tr0 =>
          obtain ⟨h1, h2⟩ := handleStop_tasks d tr0 hd
          refine ⟨fun t ht => ?_, fun tr htr => by rw [h1] at htr; cases htr⟩
          rw [h2] at ht
          by_cases h0 : tr0.sessionTime = 0
          · rw [if_pos h0] at ht; exact ih.1 t ht
          · rw [if_neg h0] at ht
            simp only [List.mem_map] at ht
            obtain ⟨t0, ht0, rfl⟩ := ht
            split
            · have := ih.2 tr0 hd
              show 0 ≤ tr0.task.timeSpent + (commitAmount tr0.sessionTime : Int)
              omega
            · exact ih.1 t0 ht0

/-- With pairwise distinct ids, Stop adds the commit amount to the stored value of
the bound task. -/
theorem handleStop_tasks_of_nodup (d : Dashboard) (hr : Reachable d) (tr : TimeTracker)
    (htr : d.tracker = some tr) (hid : (d.tasks.map Task.id).Nodup) :
    (handleStop d).tasks = d.tasks.map fun t =>
      if t.id = tr.task.id then
        { t with timeSpent := t.timeSpent + (commitAmount tr.sessionTime : Int) }
      else t := by
  obtain ⟨t0, ht0, hid0, hts0⟩ := copyStored_of_reachable d hr tr htr
  have hfresh : ∀ t ∈ d.tasks, t.id = tr.task.id → t.timeSpent = tr.task.timeSpent := by
    intro t ht h
    have : t = t0 := List.inj_on_of_nodup_map hid ht ht0 (h.trans hid0.symm)
    rw [this]; exact hts0
  rw [(handleStop_tasks d tr htr).2]
  by_cases h0 : tr.sessionTime = 0
  · rw [if_pos h0]
    have hc : commitAmount tr.sessionTime = 0 := (commitAmount_eq_zero_iff _).mpr h0
    rw [hc]
    conv_lhs => rw [← List.map_id d.tasks]
    apply List.map_congr_left
    intro t _
    split <;> simp
  · rw [if_neg h0]
    apply List.map_congr_left
    intro t ht
    by_cases h : t.id = tr.task.id
    · simp only [h, if_true]
      rw [hfresh t ht h]
    · simp only [h, if_false]

theorem noDecrease_refl (tasks : List Task) : NoDecrease tasks tasks :=
  fun _ t h => ⟨t, h, le_refl _⟩

theorem noDecrease_stop (d : Dashboard) (hr : Reachable d)
    (hid : (d.tasks.map Task.id).Nodup) : NoDecrease d.tasks (handleStop d).tasks := by
  cases hd : d.tracker with
  | none => rw [handleStop_idle d hd]; exact noDecrease_refl _
  | some tr =>
      rw [handleStop_tasks_of_nodup d hr tr hd hid]
      intro i t hi
      refine ⟨_, by rw [List.getElem?_map, hi]; rfl, ?_⟩
      by_cases h : t.id = tr.task.id
      · simp only [h, if_true]
        omega
      · simp only [h, if_false]
        exact le_refl _

/-! ## Lemmas on sequences of store calls -/

theorem deleteTasks_length (tasks : List Task) (taskId : Nat)
    (h : (tasks.map Task.id).Nodup) :
    (deleteTasks tasks taskId).length + (if taskId ∈ tasks.map Task.id then 1 else 0)
      = tasks.length := by
  induction tasks with
  | nil => simp [deleteTasks]
  | cons t rest ih =>
      simp only [List.map_cons, List.nodup_cons] at h
      by_cases ht : t.id = taskId
      · have habs : ∀ x ∈ rest, x.id ≠ taskId := by
          intro x hx hxid
          exact h.1 (List.mem_map.mpr ⟨x, hx, by rw [hxid, ht]⟩)
        have hrest : deleteTasks rest taskId = rest := deleteTasks_absent rest taskId habs
        have hdel : deleteTasks (t :: rest) taskId = deleteTasks rest taskId := by
          simp [deleteTasks, ht]
        rw [hdel, hrest]
        simp [ht]
      · have hdel : deleteTasks (t :: rest) taskId = t :: deleteTasks rest taskId := by
          simp [deleteTasks, ht]
        have hmem : (taskId ∈ (t :: rest).map Task.id) ↔ taskId ∈ rest.map Task.id := by
          simp only [List.map_cons, List.mem_cons]
          constructor
          · rintro (h1 | h1)
            · exact absurd h1.symm ht
            · exact h1
          · exact Or.inr
        rw [hdel]
        have := ih h.2
        by_cases hm : taskId ∈ rest.map Task.id
        · have hm2 := hmem.mpr hm
          simp only [hm, hm2, if_true, List.length_cons] at this ⊢
          omega
        · have hm2 : ¬ taskId ∈ (t :: rest).map Task.id := fun hx => hm (hmem.mp hx)
          simp only [hm, hm2, if_false, List.length_cons] at this ⊢
          omega

theorem deleteTasks_nodup (tasks : List Task) (taskId : Nat)
    (h : (tasks.map Task.id).Nodup) : ((deleteTasks tasks taskId).map Task.id).Nodup :=
  List.Nodup.sublist (List.Sublist.map _ (List.filter_sublist _)) h

theorem runCalls_length (calls : List StoreCall) :
    ∀ d : Dashboard, (d.tasks.map Task.id).Nodup → FreshCreates d calls →
      (runCalls d calls).tasks.length + successfulDeletes d calls
        = d.tasks.length + createCount calls := by
  induction calls with
  | nil => intro d _ _; simp [runCalls, successfulDeletes, createCount]
  | cons c calls ih =>
      intro d hnd hfresh
      cases c with
      | create a b =>
          obtain ⟨hnew, hrest⟩ := hfresh
          have hnd2 : ((addTask d a b).tasks.map Task.id).Nodup := by
            simp only [addTask, List.map_append, List.map_cons, List.map_nil]
            rw [List.nodup_append]
            refine ⟨hnd, List.nodup_singleton _, ?_⟩
            intro x hx hx2
            rw [List.mem_singleton] at hx2
            have hxa : x = a := hx2
            exact hnew (hxa ▸ hx)
          have h := ih (addTask d a b) hnd2 hrest
          have hlen : (addTask d a b).tasks.length = d.tasks.length + 1 := by simp [addTask]
          show (runCalls (addTask d a b) calls).tasks.length
              + successfulDeletes (addTask d a b) calls = d.tasks.length + (createCount calls + 1)
          omega
      | delete taskId =>
          have h := ih (deleteTask d taskId) (deleteTasks_nodup d.tasks taskId hnd) hfresh
          have hlen := deleteTasks_length d.tasks taskId hnd
          show (runCalls (deleteTask d taskId) calls).tasks.length
              + ((if taskId ∈ d.tasks.map Task.id then 1 else 0)
                + successfulDeletes (deleteTask d taskId) calls)
              = d.tasks.length + createCount calls
          have hd : (deleteTask d taskId).tasks = deleteTasks d.tasks taskId := rfl
          rw [hd] at h
          omega

/-! ## Lemmas on the grouped counts -/

theorem statsOwn_statsSet_same (acc : List (String × StatValue)) (key : String)
    (v : StatValue) : statsOwn (statsSet acc key v) key = some v := by
  induction acc with
  | nil => simp [statsSet, statsOwn]
  | cons p rest ih =>
      obtain ⟨k, w⟩ := p
      by_cases h : k = key
      · simp [statsSet, statsOwn, h]
      · simp [statsSet, statsOwn, h, ih]

theorem statsOwn_statsSet_other (acc : List (String × StatValue)) (key other : String)
    (v : StatValue) (hne : other ≠ key) :
    statsOwn (statsSet acc key v) other = statsOwn acc other := by
  induction acc with
  | nil =>
      have : ¬ key = other := fun h => hne h.symm
      simp [statsSet, statsOwn, this]
  | cons p rest ih =>
      obtain ⟨k, w⟩ := p
      by_cases h : k = key
      · have : ¬ key = other := fun h => hne h.symm
        simp [statsSet, statsOwn, h, this]
      · by_cases h2 : k = other
        · subst h2
          simp [statsSet, statsOwn, h]
        · simp [statsSet, statsOwn, h, h2, ih]

theorem statsSet_keys (acc : List (String × StatValue)) (key other : String)
    (v : StatValue) :
    other ∈ (statsSet acc key v).map Prod.fst ↔ other = key ∨ other ∈ acc.map Prod.fst := by
  induction acc with
  | nil => simp [statsSet]
  | cons p rest ih =>
      obtain ⟨k, w⟩ := p
      by_cases h : k = key
      · subst h
        simp [statsSet]
      · simp only [statsSet, h, if_false, List.map_cons, List.mem_cons, ih]
        constructor
        · rintro (h1 | h1 | h1)
          · exact Or.inr (Or.inl h1)
          · exact Or.inl h1
          · exact Or.inr (Or.inr h1)
        · rintro (h1 | h1 | h1)
          · exact Or.inr (Or.inl h1)
          · exact Or.inl h1
          · exact Or.inr (Or.inr h1)

theorem statsSet_nodup (acc : List (String × StatValue)) (key : String) (v : StatValue)
    (h : (acc.map Prod.fst).Nodup) : ((statsSet acc key v).map Prod.fst).Nodup := by
  induction acc with
  | nil => simp [statsSet]
  | cons p rest ih =>
      obtain ⟨k, w⟩ := p
      simp only [List.map_cons, List.nodup_cons] at h
      by_cases hk : k = key
      · simp only [statsSet, hk, if_true, List.map_cons, List.nodup_cons]
        rw [← hk]
        exact h
      · simp only [statsSet, hk, if_false, List.map_cons, List.nodup_cons]
        refine ⟨?_, ih h.2⟩
        intro hmem
        rcases (statsSet_keys rest key k v).mp hmem with h1 | h1
        · exact hk h1
        · exact h.1 h1

theorem statsTotal_statsSet (acc : List (String × StatValue)) (key : String)
    (v : StatValue) :
    statsTotal (statsSet acc key v) + ((statsOwn acc key).map valueCount).getD 0
      = statsTotal acc + valueCount v := by
  induction acc with
  | nil => simp [statsSet, statsOwn, statsTotal]
  | cons p rest ih =>
      obtain ⟨k, w⟩ := p
      by_cases h : k = key
      · simp only [statsSet, statsOwn, h, if_true, statsTotal, List.map_cons, List.sum_cons,
          Option.map_some', Option.getD_some]
        omega
      · simp only [statsSet, statsOwn, h, if_false, statsTotal, List.map_cons,
          List.sum_cons] at ih ⊢
        omega

theorem statsOwn_ne_none_iff (acc : List (String × StatValue)) (key : String) :
    statsOwn acc key ≠ none ↔ key ∈ acc.map Prod.fst := by
  induction acc with
  | nil => simp [statsOwn]
  | cons p rest ih =>
      obtain ⟨k, w⟩ := p
      by_cases h : k = key
      · simp [statsOwn, h]
      · have h2 : ¬ key = k := fun hx => h hx.symm
        simp [statsOwn, h, h2, ih]

theorem statsGet_plain (acc : List (String × StatValue)) (key : String)
    (h : key ∉ inheritedNames) : statsGet acc key = statsOwn acc key := by
  unfold statsGet
  cases statsOwn acc key with
  | none => simp [h]
  | some v => rfl

/-- A step of the `reduce` on one key leaves the own property of every other key. -/
theorem countInto_other (acc : List (String × StatValue)) (key other : String)
    (hne : other ≠ key) : statsOwn (countInto acc key) other = statsOwn acc other := by
  unfold countInto
  by_cases hp : key = "__proto__"
  · simp [hp]
  · simp only [hp, if_false]
    exact statsOwn_statsSet_other _ _ _ _ hne

/-- A step of the `reduce` on a key that names no inherited member, and holds no
text, stores the count raised by one. -/
theorem countInto_same (acc : List (String × StatValue)) (key : String)
    (hkey : key ∉ inheritedNames)
    (hacc : statsOwn acc key = none ∨ ∃ n, statsOwn acc key = some (.count n)) :
    countInto acc key
      = statsSet acc key (.count (((statsOwn acc key).map valueCount).getD 0 + 1)) := by
  have hp : ¬ key = "__proto__" := by
    intro h
    apply hkey
    rw [h]
    decide
  unfold countInto
  rw [statsGet_plain acc key hkey]
  rcases hacc with h | ⟨n, h⟩
  · simp [h, hp]
  · simp [h, hp, valueCount]

theorem countInto_nodup (acc : List (String × StatValue)) (key : String)
    (h : (acc.map Prod.fst).Nodup) : ((countInto acc key).map Prod.fst).Nodup := by
  unfold countInto
  by_cases hp : key = "__proto__"
  · simp only [hp, if_true]; exact h
  · simp only [hp, if_false]; exact statsSet_nodup _ _ _ h

theorem foldl_countInto_nodup (field : Task → String) (tasks : List Task) :
    ∀ acc : List (String × StatValue), (acc.map Prod.fst).Nodup →
      ((tasks.foldl (fun a task => countInto a (field task)) acc).map Prod.fst).Nodup := by
  induction tasks with
  | nil => intro acc h; exact h
  | cons t rest ih =>
      intro acc h
      exact ih _ (countInto_nodup acc (field t) h)

/-- The `reduce` of the three statistics at one key that names no inherited member,
for every snapshot and from any accumulator that holds no text under the key. -/
theorem foldl_countInto_own (field : Task → String) (key : String)
    (hkey : key ∉ inheritedNames) (tasks : List Task) :
    ∀ acc : List (String × StatValue),
      (statsOwn acc key = none ∨ ∃ n, statsOwn acc key = some (.count n)) →
      statsOwn (tasks.foldl (fun a task => countInto a (field task)) acc) key =
        if tasks.countP (fun t => field t = key) = 0 then statsOwn acc key
        else some (.count (((statsOwn acc key).map valueCount).getD 0
          + tasks.countP (fun t => field t = key))) := by
  induction tasks with
  | nil => intro acc _; simp
  | cons t rest ih =>
      intro acc hacc
      simp only [List.foldl_cons]
      by_cases hk : field t = key
      · have hstep : statsOwn (countInto acc (field t)) key
            = some (.count (((statsOwn acc key).map valueCount).getD 0 + 1)) := by
          rw [hk, countInto_same acc key hkey hacc]
          exact statsOwn_statsSet_same _ _ _
        rw [ih _ (Or.inr ⟨_, hstep⟩), hstep,
          List.countP_cons_of_pos _ _ (by simpa using hk)]
        by_cases hc : List.countP (fun t => decide (field t = key)) rest = 0
        · simp [hc, valueCount]
        · simp only [hc, if_false, Option.map_some', Option.getD_some, valueCount,
            Nat.add_eq_zero, and_false, one_ne_zero]
          congr 2
          omega
      · have hstep : statsOwn (countInto acc (field t)) key = statsOwn acc key :=
          countInto_other _ _ _ (fun hx => hk hx.symm)
        rw [ih _ (by rw [hstep]; exact hacc), hstep,
          List.countP_cons_of_neg _ _ (by simpa using hk)]

/-- A key that no task has is left as it was by the `reduce`. -/
theorem foldl_countInto_absent (field : Task → String) (key : String) (tasks : List Task)
    (h : ∀ t ∈ tasks, field t ≠ key) :
    ∀ acc : List (String × StatValue),
      statsOwn (tasks.foldl (fun a task => countInto a (field task)) acc) key
        = statsOwn acc key := by
  induction tasks with
  | nil => intro acc; rfl
  | cons t rest ih =>
      intro acc
      simp only [List.foldl_cons]
      rw [ih (fun x hx => h x (List.mem_cons_of_mem _ hx))]
      exact countInto_other _ _ _ (fun hx => h t (List.mem_cons_self _ _) hx.symm)

/-- With plain field values the numbers held by the object grow by one per task. -/
theorem foldl_countInto_total (field : Task → String) (tasks : List Task)
    (h : ∀ t ∈ tasks, field t ∉ inheritedNames) :
    ∀ acc : List (String × StatValue),
      (∀ key, statsOwn acc key = none ∨ ∃ n, statsOwn acc key = some (.count n)) →
      statsTotal (tasks.foldl (fun a task => countInto a (field task)) acc)
        = statsTotal acc + tasks.length := by
  induction tasks with
  | nil => intro acc _; simp
  | cons t rest ih =>
      intro acc hacc
      have hplain := h t (List.mem_cons_self _ _)
      have hsame := countInto_same acc (field t) hplain (hacc (field t))
      have hinv : ∀ key, statsOwn (countInto acc (field t)) key = none ∨
          ∃ n, statsOwn (countInto acc (field t)) key = some (.count n) := by
        intro key
        by_cases hk : key = field t
        · right
          rw [hk, hsame]
          exact ⟨_, statsOwn_statsSet_same _ _ _⟩
        · rw [countInto_other _ _ _ hk]
          exact hacc key
      simp only [List.foldl_cons]
      rw [ih (fun x hx => h x (List.mem_cons_of_mem _ hx)) _ hinv, hsame]
      have := statsTotal_statsSet acc (field t)
        (.count (((statsOwn acc (field t)).map valueCount).getD 0 + 1))
      simp only [valueCount, List.length_cons] at this ⊢
      omega

theorem countsBy_foldl (field : Task → String) (tasks : List Task)
    (h : ∀ t ∈ tasks, field t ∉ inheritedNames) :
    CountsBy field (tasks.foldl (fun a task => countInto a (field task)) []) tasks := by
  have hown : ∀ key, statsOwn (tasks.foldl (fun a task => countInto a (field task)) []) key =
      if tasks.countP (fun t => field t = key) = 0 then none
      else some (.count (tasks.countP (fun t => field t = key))) := by
    intro key
    by_cases hc : tasks.countP (fun t => field t = key) = 0
    · rw [if_pos hc]
      have habs : ∀ t ∈ tasks, field t ≠ key := by
        intro t ht hf
        have : 0 < tasks.countP (fun t => field t = key) :=
          List.countP_pos_iff.mpr ⟨t, ht, by simpa using hf⟩
        omega
      rw [foldl_countInto_absent field key tasks habs]
      rfl
    · obtain ⟨t, ht, hf⟩ := List.countP_pos_iff.mp (Nat.pos_of_ne_zero hc)
      have hkey : key ∉ inheritedNames := by
        have hf2 : field t = key := by simpa using hf
        rw [← hf2]
        exact h t ht
      rw [foldl_countInto_own field key hkey tasks [] (Or.inl rfl)]
      simp [hc, statsOwn]
  refine ⟨?_, hown, foldl_countInto_nodup field tasks [] (by simp), ?_⟩
  · intro key
    rw [← statsOwn_ne_none_iff, hown key]
    by_cases hc : tasks.countP (fun t => field t = key) = 0
    · simp only [hc, if_true, ne_eq, not_true_eq_false, false_iff]
      rintro ⟨t, ht, hf⟩
      have : 0 < tasks.countP (fun t => field t = key) :=
        List.countP_pos_iff.mpr ⟨t, ht, by simpa using hf⟩
      omega
    · simp only [hc, if_false, ne_eq, reduceCtorEq, not_false_eq_true, true_iff]
      obtain ⟨t, ht, hf⟩ := List.countP_pos_iff.mp (Nat.pos_of_ne_zero hc)
      exact ⟨t, ht, by simpa using hf⟩
  · rw [foldl_countInto_total field tasks h [] (fun key => Or.inl rfl)]
    simp [statsTotal]

/-- What `acc[key]` reads from the object of a `reduce`, for a key that names no
inherited member and for every snapshot: the number of tasks that have the key as
their value, or `undefined` when there is none. -/
theorem statsGet_foldl (field : Task → String) (key : String)
    (hkey : key ∉ inheritedNames) (tasks : List Task) :
    statsGet (tasks.foldl (fun a task => countInto a (field task)) []) key =
      if tasks.countP (fun t => field t = key) = 0 then none
      else some (.count (tasks.countP (fun t => field t = key))) := by
  rw [statsGet_plain _ _ hkey, foldl_countInto_own field key hkey tasks [] (Or.inl rfl)]
  simp [statsOwn]

theorem totalTimeSpent_foldl (tasks : List Task) :
    ∀ acc : Int, tasks.foldl (fun a task => a + task.timeSpent) acc
      = acc + (tasks.map Task.timeSpent).sum := by
  induction tasks with
  | nil => intro acc; simp
  | cons t rest ih =>
      intro acc
      simp only [List.foldl_cons, List.map_cons, List.sum_cons, ih]
      omega

theorem completed_count (tasks : List Task) :
    statsGet (statusStats tasks) "completed" =
      if tasks.countP (fun t => t.status = "completed") = 0 then none
      else some (.count (tasks.countP (fun t => t.status = "completed"))) :=
  statsGet_foldl Task.status "completed" (by decide) tasks

theorem totalTimeSpent_eq_sum (tasks : List Task) :
    totalTimeSpent tasks = (tasks.map Task.timeSpent).sum := by
  unfold totalTimeSpent
  rw [totalTimeSpent_foldl]
  simp

theorem completionRate_eq (tasks : List Task) :
    completionRate tasks =
      some (if tasks.length = 0 then 0
        else ((tasks.countP (fun t => t.status = "completed") : Nat) : ℚ)
          / (tasks.length : ℚ) * 100) := by
  unfold completionRate
  rw [completed_count]
  by_cases h : tasks.length = 0
  · simp [h]
  · have hpos : tasks.length > 0 := Nat.pos_of_ne_zero h
    by_cases hc : tasks.countP (fun t => t.status = "completed") = 0
    · simp [h, hpos, hc]
    · simp [h, hpos, hc]

theorem avgTimePerTask_eq (tasks : List Task) :
    avgTimePerTask tasks =
      if tasks.length = 0 then 0
      else (((tasks.map Task.timeSpent).sum : Int) : ℚ) / (tasks.length : ℚ) := by
  unfold avgTimePerTask
  rw [totalTimeSpent_eq_sum]
  by_cases h : tasks.length = 0
  · simp [h]
  · have hpos : tasks.length > 0 := Nat.pos_of_ne_zero h
    simp [h, hpos]

/-! ## Lemmas on the export serializers -/

theorem splitLines_no_newline (l : List Char) (h : '\n' ∉ l) : splitLines l = [l] := by
  induction l with
  | nil => rfl
  | cons c cs ih =>
      have hc : ¬ c = '\n' := fun hx => h (by rw [hx]; exact List.mem_cons_self _ _)
      have hcs : '\n' ∉ cs := fun hx => h (List.mem_cons_of_mem _ hx)
      simp [splitLines, hc, ih hcs]

theorem splitLines_append (l rest : List Char) (h : '\n' ∉ l) :
    splitLines (l ++ '\n' :: rest) = l :: splitLines rest := by
  induction l with
  | nil => simp [splitLines]
  | cons c cs ih =>
      have hc : ¬ c = '\n' := fun hx => h (by rw [hx]; exact List.mem_cons_self _ _)
      have hcs : '\n' ∉ cs := fun hx => h (List.mem_cons_of_mem _ hx)
      simp [splitLines, hc, ih hcs]

theorem jsJoin_cons_cons (sep a b : String) (rest : List String) :
    (jsJoin sep (a :: b :: rest)).toList
      = a.toList ++ sep.toList ++ (jsJoin sep (b :: rest)).toList := by
  simp [jsJoin, String.data_append]

/-- Splitting the join at the newlines gives the pieces back when no piece holds a
newline. -/
theorem splitLines_jsJoin (pieces : List String) :
    ∀ first : String, (∀ p ∈ first :: pieces, '\n' ∉ p.toList) →
      splitLines (jsJoin "\n" (first :: pieces)).toList
        = (first :: pieces).map String.toList := by
  induction pieces with
  | nil =>
      intro first h
      simp only [jsJoin, List.map_cons, List.map_nil]
      exact splitLines_no_newline _ (h first (List.mem_cons_self _ _))
  | cons b rest ih =>
      intro first h
      rw [jsJoin_cons_cons]
      have hsep : ("\n" : String).toList = ['\n'] := rfl
      rw [hsep, List.append_assoc, List.singleton_append,
        splitLines_append _ _ (h first (List.mem_cons_self _ _)),
        ih b (fun p hp => h p (List.mem_cons_of_mem _ hp))]
      rfl

theorem csvRow_eq (f : Nat → String) (t : Task) :
    csvRow f t =
      "\"" ++ t.title ++ "\"" ++ "," ++ ("\"" ++ t.description ++ "\"" ++ "," ++
        (t.category ++ "," ++ (t.priority ++ "," ++ (t.status ++ "," ++
          (toString t.timeSpent ++ "," ++ f t.createdAt))))) := by
  have hd : (if t.description = "" then "" else t.description) = t.description := by
    split
    · rename_i h; exact h.symm
    · rfl
  simp only [csvRow, jsJoin, hd]

theorem formatTime_natCast (n : Nat) :
    formatTime (n : Int) = toString (n / 60) ++ "h " ++ toString (n % 60) ++ "m" := by
  have h1 : Int.fdiv (n : Int) 60 = ((n / 60 : Nat) : Int) := by
    rw [Int.fdiv_eq_ediv _ (by norm_num)]
    norm_cast
  have h2 : Int.tmod (n : Int) 60 = ((n % 60 : Nat) : Int) := by
    rw [Int.tmod_eq_emod (by omega) (by norm_num)]
    norm_cast
  simp only [formatTime, h1, h2]
  rfl

/-! ## Claims -/

/-- C1: for every elapsed session time `s`, Stop commits `floor(s/60)` minutes,
except that it commits 1 minute when `s > 0` and `floor(s/60) = 0`: the call of
`onUpdateTime` adds that amount to the `timeSpent` of the `task` prop, and no call
is made when `s = 0`.  So 45 seconds commit 1 minute, 125 seconds 2 minutes and
0 seconds 0 minutes. -/
theorem stop_commit_amount (task : Task) (s : Nat) :
    committedMinutes task s = ((if 0 < s ∧ s / 60 = 0 then 1 else s / 60 : Nat) : Int) ∧
    handleStopUpdate task s =
      (if s = 0 then none
       else some (task.id, task.timeSpent + ((if 0 < s ∧ s / 60 = 0 then 1 else s / 60 : Nat) : Int))) ∧
    committedMinutes task 45 = 1 ∧ committedMinutes task 125 = 2 ∧
    committedMinutes task 0 = 0 := by
  have key : ∀ n, committedMinutes task n = (commitAmount n : Int) := by
    intro n
    unfold committedMinutes
    rw [handleStopUpdate_eq]
    by_cases h0 : n = 0
    · subst h0; simp [commitAmount]
    · simp [h0]
  refine ⟨key s, handleStopUpdate_eq task s, ?_, ?_, ?_⟩
  · rw [key]; decide
  · rw [key]; decide
  · rw [key]; decide

set_option maxRecDepth 100000 in
/-- C2, counterexample: in the reachable state `staleRun` the timer is bound to id 7
with 1 elapsed second, and the stored tasks of id 7 have `timeSpent` 2 and 0.  Stop
stores 1 for both: the task that held 2 minutes does not end with its stored value
plus the commit amount, and is not left unchanged either. -/
theorem stop_stale_copy :
    Reachable staleRun ∧
    staleRun.tracker.map (fun tr => (tr.task.id, tr.task.timeSpent, tr.sessionTime))
      = some (7, 0, 1) ∧
    staleRun.tasks.map (fun t => (t.id, t.timeSpent)) = [(5, 0), (7, 2), (7, 0)] ∧
    (handleStop staleRun).tasks.map (fun t => (t.id, t.timeSpent))
      = [(5, 0), (7, 1), (7, 1)] :=
  ⟨reachable_staleRun, by decide, by decide, by decide⟩

/-- C2, amended: in every reachable state in which no two tasks share an id and a
timer is bound, the bound task is stored, and Stop leaves its stored `timeSpent`
equal to the value stored before the stop plus the commit amount, with every other
field of it and every other task unchanged. -/
theorem stop_adds_commit_to_stored (d : Dashboard) (hr : Reachable d) (tr : TimeTracker)
    (htr : d.tracker = some tr) (hid : (d.tasks.map Task.id).Nodup) :
    (∃ t ∈ d.tasks, t.id = tr.task.id) ∧
    (handleStop d).tasks = d.tasks.map fun t =>
      if t.id = tr.task.id then
        { t with timeSpent := t.timeSpent + (commitAmount tr.sessionTime : Int) }
      else t := by
  obtain ⟨t0, ht0, hid0, hts0⟩ := copyStored_of_reachable d hr tr htr
  refine ⟨⟨t0, ht0, hid0⟩, ?_⟩
  have hfresh : ∀ t ∈ d.tasks, t.id = tr.task.id → t.timeSpent = tr.task.timeSpent := by
    intro t ht h
    have : t = t0 := List.inj_on_of_nodup_map hid ht ht0 (h.trans hid0.symm)
    rw [this]; exact hts0
  rw [(handleStop_tasks d tr htr).2]
  by_cases h0 : tr.sessionTime = 0
  · rw [if_pos h0]
    have hc : commitAmount tr.sessionTime = 0 := (commitAmount_eq_zero_iff _).mpr h0
    rw [hc]
    conv_lhs => rw [← List.map_id d.tasks]
    apply List.map_congr_left
    intro t _
    split <;> simp
  · rw [if_neg h0]
    apply List.map_congr_left
    intro t ht
    by_cases h : t.id = tr.task.id
    · simp only [h, if_true]
      rw [hfresh t ht h]
    · simp only [h, if_false]

/-- C2, amended, at `oneTaskRun`: one task, its timer stopped after one tick. -/
theorem stop_adds_commit_to_stored_witness :
    Reachable oneTaskRun ∧ oneTaskRun.tracker = some ⟨newTask 5 5, true, 1, true⟩ ∧
    (oneTaskRun.tasks.map Task.id).Nodup ∧
    (∃ t ∈ oneTaskRun.tasks, t.id = (newTask 5 5).id) ∧
    (handleStop oneTaskRun).tasks = oneTaskRun.tasks.map fun t =>
      if t.id = (newTask 5 5).id then
        { t with timeSpent := t.timeSpent + (commitAmount 1 : Int) }
      else t :=
  ⟨reachable_oneTaskRun, rfl, by decide,
    stop_adds_commit_to_stored oneTaskRun reachable_oneTaskRun ⟨newTask 5 5, true, 1, true⟩
      rfl (by decide)⟩

set_option maxRecDepth 100000 in
/-- C3, the code at the failing input: `startTimer` never touches the task list.  In
`switchRun` the first task (id 5) has a running session of 125 seconds, whose commit
amount is 2 minutes; starting the timer of the second task (id 7) leaves the stored
`timeSpent` of the first at 0, and the next Stop books the 2 minutes on the second. -/
theorem start_other_commits_nothing :
    (∀ d task, (startTimer d task).tasks = d.tasks) ∧
    Reachable switchRun ∧
    switchRun.tracker.map (fun tr => (tr.task.id, tr.isRunning, tr.sessionTime))
      = some (5, true, 125) ∧
    commitAmount 125 = 2 ∧
    switchRun.tasks.map (fun t => (t.id, t.timeSpent)) = [(5, 0), (7, 0)] ∧
    (startTimer switchRun (newTask 7 7)).tasks.map (fun t => (t.id, t.timeSpent))
      = [(5, 0), (7, 0)] ∧
    (handleStop (startTimer switchRun (newTask 7 7))).tasks.map (fun t => (t.id, t.timeSpent))
      = [(5, 0), (7, 2)] := by
  refine ⟨?_, ?_, by decide, by decide, by decide, by decide, by decide⟩
  · intro d task
    unfold startTimer
    cases d.tracker with
    | none => rfl
    | some tr => dsimp only; split <;> rfl
  · exact reachable_iterate_tick _
      (Reachable.startTimer _ _
        (Reachable.addTask _ 7 7 (Reachable.addTask _ 5 5 Reachable.initial)) (by decide)) 125

set_option maxRecDepth 100000 in
/-- C4, the code at the failing input: in `switchRun` the session of the first task
has 125 elapsed seconds; `startTimer` for the second task binds the session to it
and keeps `isRunning`, but the elapsed counter stays at 125 instead of 0.  From no
session the counter does start at 0. -/
theorem start_other_keeps_elapsed :
    switchRun.tracker.map (fun tr => (tr.task.id, tr.isRunning, tr.sessionTime))
      = some (5, true, 125) ∧
    (startTimer switchRun (newTask 7 7)).tracker.map
        (fun tr => (tr.task.id, tr.isRunning, tr.sessionTime))
      = some (7, true, 125) ∧
    (∀ d task, d.tracker = none →
      (startTimer d task).tracker = some ⟨task, true, 0, true⟩) := by
  refine ⟨by decide, by decide, ?_⟩
  intro d task h
  simp [startTimer, h]

/-- C5: when a session is bound to a task, deleting that task leaves no active
session, removes every task of that id, and keeps the other tasks as they were, in
their order, whatever the elapsed time; deleting by any other id leaves the session,
its `isRunning` and its elapsed time as they were. -/
theorem delete_bound_discards_session (d : Dashboard) (tr : TimeTracker)
    (htr : d.tracker = some tr) :
    (deleteTask d tr.task.id).tracker = none ∧
    (∀ t ∈ (deleteTask d tr.task.id).tasks, t.id ≠ tr.task.id) ∧
    List.Sublist (deleteTask d tr.task.id).tasks d.tasks ∧
    (∀ t ∈ d.tasks, t.id ≠ tr.task.id → t ∈ (deleteTask d tr.task.id).tasks) ∧
    (∀ taskId, taskId ≠ tr.task.id → (deleteTask d taskId).tracker = some tr) := by
  refine ⟨?_, ?_, ?_, ?_, ?_⟩
  · simp [deleteTask, htr]
  · intro t ht
    simp only [deleteTask, deleteTasks, List.mem_filter, decide_eq_true_eq] at ht
    exact ht.2
  · simp only [deleteTask, deleteTasks]
    exact List.filter_sublist _
  · intro t ht hne
    simp only [deleteTask, deleteTasks, List.mem_filter, decide_eq_true_eq]
    exact ⟨ht, hne⟩
  · intro taskId hne
    have : ¬ tr.task.id = taskId := fun h => hne h.symm
    simp [deleteTask, htr, this]

/-- C5 at `oneTaskRun`: the only task is deleted while its timer runs. -/
theorem delete_bound_discards_session_witness :
    oneTaskRun.tracker = some ⟨newTask 5 5, true, 1, true⟩ ∧
    (deleteTask oneTaskRun 5).tracker = none ∧ (deleteTask oneTaskRun 5).tasks = [] ∧
    (deleteTask oneTaskRun 6).tracker = some ⟨newTask 5 5, true, 1, true⟩ :=
  have h := delete_bound_discards_session oneTaskRun ⟨newTask 5 5, true, 1, true⟩ rfl
  ⟨rfl, h.1, by decide, h.2.2.2.2 6 (by decide)⟩

set_option maxRecDepth 100000 in
/-- C6, the code at the failing input: in `switchRun` the timer of the task of id 5
runs with 125 elapsed seconds.  Start Timer on the card of the task of id 7 clears
the interval and leaves `isRunning` true, so the session is Running with no interval
registered: three ticks, all of them while Running, leave the elapsed time at 125
where the claim counts 128.  Only Pause followed by Resume registers the interval
again. -/
theorem switch_freezes_running_timer :
    Reachable (startTimer switchRun (newTask 7 7)) ∧
    switchRun.tracker.map (fun tr => (tr.task.id, tr.isRunning, tr.sessionTime, tr.timerLive))
      = some (5, true, 125, true) ∧
    (startTimer switchRun (newTask 7 7)).tracker.map
        (fun tr => (tr.task.id, tr.isRunning, tr.sessionTime, tr.timerLive))
      = some (7, true, 125, false) ∧
    (runEvents (startTimer switchRun (newTask 7 7)) [.tick, .tick, .tick]).tracker.map
        (fun tr => (tr.isRunning, tr.sessionTime))
      = some (true, 125) ∧
    ticksWhileRunning true [.tick, .tick, .tick] = 3 ∧
    (runEvents (startTimer switchRun (newTask 7 7)) [.pause, .resume, .tick]).tracker.map
        (fun tr => (tr.isRunning, tr.sessionTime))
      = some (true, 126) := by
  refine ⟨?_, by decide, by decide, by decide, by decide, by decide⟩
  have h : Reachable switchRun :=
    reachable_iterate_tick _
      (Reachable.startTimer _ _
        (Reachable.addTask _ 7 7 (Reachable.addTask _ 5 5 Reachable.initial)) (by decide)) 125
  exact Reachable.startTimer _ _ h (by decide)

/-- A session started from no session: with no session (Idle) a tick changes
nothing.  After `startTimer` from Idle and any sequence of ticks, pauses and resumes, the session is still bound to
the task and its elapsed time, the value Stop reads, is the number of ticks that
fell while Running; in that state a tick adds exactly 1 when Running and nothing
when Paused, Pause keeps the elapsed time and enters Paused, Resume keeps it and
enters Running. -/
theorem elapsed_counts_running_ticks (d : Dashboard) (task : Task)
    (events : List TimerEvent) (hidle : d.tracker = none) :
    tick d = d ∧
    ∃ tr, (runEvents (startTimer d task) events).tracker = some tr ∧ tr.task = task ∧
      tr.sessionTime = ticksWhileRunning true events ∧
      (tick (runEvents (startTimer d task) events)).tracker.map TimeTracker.sessionTime
        = some (if tr.isRunning then tr.sessionTime + 1 else tr.sessionTime) ∧
      (handlePause (runEvents (startTimer d task) events)).tracker.map
          (fun x => (x.isRunning, x.sessionTime)) = some (false, tr.sessionTime) ∧
      (handleStart (runEvents (startTimer d task) events)).tracker.map
          (fun x => (x.isRunning, x.sessionTime)) = some (true, tr.sessionTime) := by
  refine ⟨by simp [tick, hidle], ?_⟩
  obtain ⟨tr, h1, h2, h3, h4, _⟩ :=
    runEvents_tracker events (startTimer d task) ⟨task, true, 0, true⟩
      (by simp [startTimer, hidle]) rfl
  refine ⟨tr, h1, h2, by simpa using h4, ?_, ?_, ?_⟩
  · cases hrun : tr.isRunning with
    | true =>
        have hlive : tr.timerLive = true := by rw [h3, hrun]
        simp [tick, h1, hlive]
    | false =>
        have hlive : tr.timerLive = false := by rw [h3, hrun]
        simp [tick, h1, hlive]
  · simp [handlePause, h1]
  · simp [handleStart, h1]

/-- A session started from no session, at a concrete run: start, two ticks, pause,
a tick, resume, a tick. -/
theorem elapsed_counts_running_ticks_witness :
    Dashboard.initial.tracker = none ∧
    (runEvents (startTimer Dashboard.initial (newTask 5 5))
        [.tick, .tick, .pause, .tick, .resume, .tick]).tracker.map TimeTracker.sessionTime
      = some 3 ∧
    tick Dashboard.initial = Dashboard.initial ∧
    ∃ tr, (runEvents (startTimer Dashboard.initial (newTask 5 5))
        [.tick, .tick, .pause, .tick, .resume, .tick]).tracker = some tr ∧
      tr.task = newTask 5 5 ∧
      tr.sessionTime = ticksWhileRunning true [.tick, .tick, .pause, .tick, .resume, .tick] :=
  have h := elapsed_counts_running_ticks Dashboard.initial (newTask 5 5)
    [.tick, .tick, .pause, .tick, .resume, .tick] rfl
  ⟨rfl, by decide, h.1, h.2.imp fun _ hx => ⟨hx.1, hx.2.1, hx.2.2.1⟩⟩

/-- C7: `update(id, patch)` keeps the length of the list, and at every position
holds the old task unchanged when its id differs from `id`, and otherwise a task in
which each field named in the patch has the value of the patch and each field not
named in the patch has its old value. -/
theorem update_changes_only_patched (tasks : List Task) (taskId : Nat) (updates : Updates)
    (i : Nat) (t : Task) (h : tasks[i]? = some t) :
    (updateTasks tasks taskId updates).length = tasks.length ∧
    ∃ t2, (updateTasks tasks taskId updates)[i]? = some t2 ∧
      (t.id ≠ taskId → t2 = t) ∧
      (t.id = taskId →
        (updates.id = none → t2.id = t.id) ∧
        (updates.title = none → t2.title = t.title) ∧
        (updates.description = none → t2.description = t.description) ∧
        (updates.category = none → t2.category = t.category) ∧
        (updates.priority = none → t2.priority = t.priority) ∧
        (updates.status = none → t2.status = t.status) ∧
        (updates.timeSpent = none → t2.timeSpent = t.timeSpent) ∧
        (updates.createdAt = none → t2.createdAt = t.createdAt) ∧
        (updates.dueDate = none → t2.dueDate = t.dueDate) ∧
        (∀ v, updates.id = some v → t2.id = v) ∧
        (∀ v, updates.title = some v → t2.title = v) ∧
        (∀ v, updates.description = some v → t2.description = v) ∧
        (∀ v, updates.category = some v → t2.category = v) ∧
        (∀ v, updates.priority = some v → t2.priority = v) ∧
        (∀ v, updates.status = some v → t2.status = v) ∧
        (∀ v, updates.timeSpent = some v → t2.timeSpent = v) ∧
        (∀ v, updates.createdAt = some v → t2.createdAt = v) ∧
        (∀ v, updates.dueDate = some v → t2.dueDate = v)) := by
  refine ⟨by simp [updateTasks], ?_⟩
  refine ⟨if t.id = taskId then spread t updates else t, ?_, ?_, ?_⟩
  · simp [updateTasks, List.getElem?_map, h]
  · intro hne
    simp [hne]
  · intro heq
    rw [if_pos heq]
    refine ⟨?_, ?_, ?_, ?_, ?_, ?_, ?_, ?_, ?_, ?_, ?_, ?_, ?_, ?_, ?_, ?_, ?_, ?_⟩ <;>
      intro hv <;> first
        | (simp [spread, hv])
        | (intro hv2; simp [spread, hv2])

/-- C7 at a list of two tasks and a patch that names only the title. -/
theorem update_changes_only_patched_witness :
    [newTask 5 5, newTask 7 7][1]? = some (newTask 7 7) ∧
    updateTasks [newTask 5 5, newTask 7 7] 7 { title := some "Report" }
      = [newTask 5 5, { newTask 7 7 with title := "Report" }] ∧
    (updateTasks [newTask 5 5, newTask 7 7] 7 { title := some "Report" }).length = 2 :=
  ⟨rfl, by decide,
    (update_changes_only_patched [newTask 5 5, newTask 7 7] 7 { title := some "Report" }
      1 (newTask 7 7) rfl).1⟩

/-- C8, counterexample: no task of `oneTaskStore` has id 9, and both
`updateTask(9, ...)` and `deleteTask(9)` complete without `NotFound`, leaving the
state as it was. -/
theorem update_delete_absent_succeed :
    (∀ t ∈ oneTaskStore.tasks, t.id ≠ 9) ∧
    updateTaskResult oneTaskStore 9 { title := some "Report" } = .ok oneTaskStore ∧
    deleteTaskResult oneTaskStore 9 = .ok oneTaskStore ∧
    updateTaskResult oneTaskStore 9 { title := some "Report" } ≠ .error .NotFound ∧
    deleteTaskResult oneTaskStore 9 ≠ .error .NotFound := by
  refine ⟨by decide, rfl, rfl, ?_, ?_⟩
  · intro h; cases h
  · intro h; cases h

/-- C8, amended: for every id that no task of the list has, `update(id, patch)` and
`delete(id)` complete without an error and leave the task list as it was. -/
theorem update_delete_absent_unchanged (d : Dashboard) (taskId : Nat) (updates : Updates)
    (h : ∀ t ∈ d.tasks, t.id ≠ taskId) :
    updateTaskResult d taskId updates = .ok d ∧
    ∃ d2, deleteTaskResult d taskId = .ok d2 ∧ d2.tasks = d.tasks := by
  constructor
  · simp only [updateTaskResult, updateTask, updateTasks_absent d.tasks taskId updates h]
  · exact ⟨deleteTask d taskId, rfl, deleteTasks_absent d.tasks taskId h⟩

/-- C8, amended, at `oneTaskStore` and the absent id 9. -/
theorem update_delete_absent_unchanged_witness :
    (∀ t ∈ oneTaskStore.tasks, t.id ≠ 9) ∧
    updateTaskResult oneTaskStore 9 { status := some "completed" } = .ok oneTaskStore ∧
    ∃ d2, deleteTaskResult oneTaskStore 9 = .ok d2 ∧ d2.tasks = oneTaskStore.tasks :=
  ⟨by decide,
    update_delete_absent_unchanged oneTaskStore 9 { status := some "completed" } (by decide)⟩

/-- C9, counterexample: `"urgent"` is not a priority, yet `updateTask` with the patch
`{ priority: "urgent" }` completes without `ValidationError` and stores the value. -/
theorem update_out_of_set_stored :
    "urgent" ∉ priorityOptions ∧
    updateTaskResult oneTaskStore 5 { priority := some "urgent" }
      = .ok ⟨[{ newTask 5 5 with priority := "urgent" }], none⟩ ∧
    updateTaskResult oneTaskStore 5 { priority := some "urgent" } ≠ .error .ValidationError := by
  refine ⟨by decide, rfl, ?_⟩
  intro h; cases h

/-- C9, amended: `update` never rejects.  When every value that the patch assigns to
category, priority or status is a member of the field's set, a list whose tasks have
category, priority and status in their sets is stored as such a list again; the
task built by `addTask` has its three values in the sets. -/
theorem update_keeps_enums_valid (d : Dashboard) (taskId : Nat) (updates : Updates)
    (hd : ∀ t ∈ d.tasks, EnumsValid t) (hu : UpdatesValid updates) :
    (∃ d2, updateTaskResult d taskId updates = .ok d2 ∧ ∀ t ∈ d2.tasks, EnumsValid t) ∧
    (∀ idClock createdClock, EnumsValid (newTask idClock createdClock)) := by
  refine ⟨⟨updateTask d taskId updates, rfl, ?_⟩, ?_⟩
  · intro t ht
    simp only [updateTask, updateTasks, List.mem_map] at ht
    obtain ⟨t0, ht0, rfl⟩ := ht
    have h0 := hd t0 ht0
    by_cases hid : t0.id = taskId
    · rw [if_pos hid]
      obtain ⟨hc, hp, hs⟩ := hu
      refine ⟨?_, ?_, ?_⟩
      · cases hcat : updates.category with
        | none => simpa [spread, hcat] using h0.1
        | some c => simpa [spread, hcat] using hc c hcat
      · cases hpri : updates.priority with
        | none => simpa [spread, hpri] using h0.2.1
        | some c => simpa [spread, hpri] using hp c hpri
      · cases hst : updates.status with
        | none => simpa [spread, hst] using h0.2.2
        | some c => simpa [spread, hst] using hs c hst
    · rw [if_neg hid]; exact h0
  · intro a b
    exact ⟨by simp [newTask, categoryOptions], by simp [newTask, priorityOptions],
      by simp [newTask, statusOptions]⟩

/-- C9, amended, at `oneTaskStore` and the patch `{ priority: "high" }`. -/
theorem update_keeps_enums_valid_witness :
    (∀ t ∈ oneTaskStore.tasks, EnumsValid t) ∧ UpdatesValid { priority := some "high" } ∧
    ∃ d2, updateTaskResult oneTaskStore 5 { priority := some "high" } = .ok d2 ∧
      ∀ t ∈ d2.tasks, EnumsValid t :=
  have hd : ∀ t ∈ oneTaskStore.tasks, EnumsValid t := by decide
  have hu : UpdatesValid { priority := some "high" } :=
    ⟨fun _ h => (by cases h), fun _ h => (by cases h; decide), fun _ h => (by cases h)⟩
  ⟨hd, hu, (update_keeps_enums_valid oneTaskStore 5 { priority := some "high" } hd hu).1⟩

/-- C10, counterexample: a patch that names `id` and `createdAt` overwrites both. -/
theorem update_overwrites_id_createdAt :
    (newTask 5 5).id = 5 ∧ (newTask 5 5).createdAt = 5 ∧
    (updateTasks [newTask 5 5] 5 { id := some 99, createdAt := some 0 }).map
      (fun t => (t.id, t.createdAt)) = [(99, 0)] :=
  ⟨rfl, rfl, by decide⟩

/-- C10, amended: an update whose patch names neither `id` nor `createdAt` leaves
the id and the `createdAt` of every task as they were; so do the Save of a
`TaskCard`, `updateTimeSpent` and Stop, whose patches name neither. -/
theorem update_keeps_id_createdAt (tasks : List Task) (taskId : Nat) (updates : Updates)
    (hid : updates.id = none) (hc : updates.createdAt = none) :
    (updateTasks tasks taskId updates).map (fun t => (t.id, t.createdAt))
      = tasks.map (fun t => (t.id, t.createdAt)) ∧
    (∀ (d : Dashboard) (task : Task) (e : EditData),
      (handleSave d task e).tasks.map (fun t => (t.id, t.createdAt))
        = d.tasks.map (fun t => (t.id, t.createdAt))) ∧
    (∀ (d : Dashboard) (taskId2 : Nat) (v : Int),
      (updateTimeSpent d taskId2 v).tasks.map (fun t => (t.id, t.createdAt))
        = d.tasks.map (fun t => (t.id, t.createdAt))) ∧
    (∀ d : Dashboard,
      (handleStop d).tasks.map (fun t => (t.id, t.createdAt))
        = d.tasks.map (fun t => (t.id, t.createdAt))) := by
  refine ⟨updateTasks_keeps_id_createdAt tasks taskId updates hid hc, ?_, ?_, ?_⟩
  · intro d task e
    exact updateTasks_keeps_id_createdAt d.tasks task.id e.toUpdates rfl rfl
  · intro d taskId2 v
    exact updateTasks_keeps_id_createdAt d.tasks taskId2 { timeSpent := some v } rfl rfl
  · intro d
    unfold handleStop
    cases d.tracker with
    | none => rfl
    | some tr =>
        dsimp only
        cases handleStopUpdate tr.task tr.sessionTime with
        | none => rfl
        | some p =>
            exact updateTasks_keeps_id_createdAt d.tasks p.1 { timeSpent := some p.2 } rfl rfl

/-- C10, amended, at a one-task list and the patch `{ title: "Report" }`. -/
theorem update_keeps_id_createdAt_witness :
    ({ title := some "Report" } : Updates).id = none ∧
    ({ title := some "Report" } : Updates).createdAt = none ∧
    (updateTasks [newTask 5 6] 5 { title := some "Report" }).map (fun t => (t.id, t.createdAt))
      = [newTask 5 6].map (fun t => (t.id, t.createdAt)) :=
  ⟨rfl, rfl, (update_keeps_id_createdAt [newTask 5 6] 5 { title := some "Report" } rfl rfl).1⟩

set_option maxRecDepth 100000 in
/-- C11, counterexample: an update whose patch names `timeSpent` stores a negative
value, and in the reachable state `staleRun`, where two tasks share id 7, the timer
commit lowers a stored `timeSpent` from 2 to 1. -/
theorem timeSpent_negative_or_lowered :
    (updateTask oneTaskStore 5 { timeSpent := some (-5) }).tasks.map Task.timeSpent = [-5] ∧
    Reachable staleRun ∧
    staleRun.tasks.map Task.timeSpent = [0, 2, 0] ∧
    (handleStop staleRun).tasks.map Task.timeSpent = [0, 1, 1] :=
  ⟨by decide, reachable_staleRun, by decide, by decide⟩

/-- C11, amended: in every state reachable through `addTask`, the Save of a card,
`deleteTask` and the timer handlers, no task has a negative `timeSpent`.  There
`addTask` keeps the old tasks in place, Save keeps every `timeSpent`, `deleteTask`
keeps the remaining tasks, `startTimer`, the tick, Pause and Resume keep the list,
and when no two tasks share an id Stop lowers no `timeSpent`. -/
theorem timeSpent_nonneg_not_lowered (d : Dashboard) (hr : Reachable d) :
    (∀ t ∈ d.tasks, 0 ≤ t.timeSpent) ∧
    (∀ idClock createdClock,
      (addTask d idClock createdClock).tasks.take d.tasks.length = d.tasks) ∧
    (∀ task editData,
      (handleSave d task editData).tasks.map Task.timeSpent = d.tasks.map Task.timeSpent) ∧
    (∀ taskId, List.Sublist (deleteTask d taskId).tasks d.tasks) ∧
    (∀ task, (startTimer d task).tasks = d.tasks) ∧
    (tick d).tasks = d.tasks ∧ (handlePause d).tasks = d.tasks ∧
    (handleStart d).tasks = d.tasks ∧
    ((d.tasks.map Task.id).Nodup → NoDecrease d.tasks (handleStop d).tasks) := by
  refine ⟨(nonneg_of_reachable d hr).1, ?_, handleSave_timeSpent d, ?_, startTimer_tasks d,
    (tick_frame d).1, (handlePause_frame d).1, (handleStart_frame d).1,
    noDecrease_stop d hr⟩
  · intro a b
    simp [addTask]
  · intro taskId
    simp only [deleteTask, deleteTasks]
    exact List.filter_sublist _

/-- C11, amended, at `oneTaskRun`: the task holds 0 minutes and Stop gives it 1. -/
theorem timeSpent_nonneg_not_lowered_witness :
    Reachable oneTaskRun ∧ (∀ t ∈ oneTaskRun.tasks, 0 ≤ t.timeSpent) ∧
    oneTaskRun.tasks.map Task.timeSpent = [0] ∧
    (handleStop oneTaskRun).tasks.map Task.timeSpent = [1] ∧
    NoDecrease oneTaskRun.tasks (handleStop oneTaskRun).tasks :=
  have h := timeSpent_nonneg_not_lowered oneTaskRun reachable_oneTaskRun
  ⟨reachable_oneTaskRun, h.1, by decide, by decide, h.2.2.2.2.2.2.2.2 (by decide)⟩

/-- C12, the code at the failing input: two calls of `addTask` that read the same
clock value 5 leave two tasks of id 5 in a reachable state. -/
theorem same_clock_same_id :
    Reachable (addTask (addTask Dashboard.initial 5 5) 5 5) ∧
    (addTask (addTask Dashboard.initial 5 5) 5 5).tasks.map Task.id = [5, 5] ∧
    ¬ ((addTask (addTask Dashboard.initial 5 5) 5 5).tasks.map Task.id).Nodup :=
  ⟨Reachable.addTask _ 5 5 (Reachable.addTask _ 5 5 Reachable.initial), by decide, by decide⟩

/-- C13, counterexample: two creates that read the same clock value and one delete
of that id leave an empty list, where creates minus successful deletes is 1. -/
theorem delete_removes_two :
    (runCalls Dashboard.initial [.create 5 5, .create 5 5, .delete 5]).tasks.length = 0 ∧
    createCount [.create 5 5, .create 5 5, .delete 5] = 2 ∧
    successfulDeletes Dashboard.initial [.create 5 5, .create 5 5, .delete 5] = 1 :=
  ⟨by decide, by decide, by decide⟩

/-- C13, amended: for every sequence of create and delete calls from the empty store
in which each create reads a clock value that is the id of no task then stored, the
length of the list is the number of creates minus the number of deletes that
referenced an id present at the time of the call. -/
theorem length_creates_minus_deletes (calls : List StoreCall)
    (h : FreshCreates Dashboard.initial calls) :
    (runCalls Dashboard.initial calls).tasks.length
      = createCount calls - successfulDeletes Dashboard.initial calls ∧
    successfulDeletes Dashboard.initial calls ≤ createCount calls := by
  have key := runCalls_length calls Dashboard.initial (by simp [Dashboard.initial]) h
  have h0 : Dashboard.initial.tasks.length = 0 := rfl
  rw [h0] at key
  omega

/-- C13, amended, at three creates and two deletes, one of an absent id. -/
theorem length_creates_minus_deletes_witness :
    FreshCreates Dashboard.initial
      [.create 5 5, .create 6 6, .delete 5, .delete 9, .create 7 7] ∧
    (runCalls Dashboard.initial
      [.create 5 5, .create 6 6, .delete 5, .delete 9, .create 7 7]).tasks.length = 3 - 1 :=
  have hf : FreshCreates Dashboard.initial
      [.create 5 5, .create 6 6, .delete 5, .delete 9, .create 7 7] := by
    simp [FreshCreates, Dashboard.initial, addTask, deleteTask, deleteTasks, newTask]
  ⟨hf, (length_creates_minus_deletes _ hf).1⟩

/-- C14: `create` completes without an error; the stored list is the old list with
one task appended at the end, whose status is todo, priority medium, `timeSpent` 0,
`dueDate` none and `createdAt` the clock reading; the old tasks keep their places,
and the timer is untouched. -/
theorem create_appends_default (d : Dashboard) (idClock createdClock : Nat) :
    ∃ d2 t, addTaskResult d idClock createdClock = .ok d2 ∧
      d2.tasks = d.tasks ++ [t] ∧ d2.tasks.length = d.tasks.length + 1 ∧
      d2.tasks.take d.tasks.length = d.tasks ∧ d2.tracker = d.tracker ∧
      t.status = "todo" ∧ t.priority = "medium" ∧ t.timeSpent = 0 ∧ t.dueDate = none ∧
      t.createdAt = createdClock ∧ t.id = idClock := by
  refine ⟨addTask d idClock createdClock, newTask idClock createdClock, rfl, rfl, ?_, ?_,
    rfl, rfl, rfl, rfl, rfl, rfl, rfl⟩
  · simp [addTask]
  · simp [addTask]

/-- C15: after `delete(id)` no task of the list has that id; the list is a sublist
of the old one, and for every other id the tasks of that id are those of the old
list, unchanged and in their order. -/
theorem delete_removes_only_id (tasks : List Task) (taskId : Nat) :
    (∀ t ∈ deleteTasks tasks taskId, t.id ≠ taskId) ∧
    List.Sublist (deleteTasks tasks taskId) tasks ∧
    (∀ other, other ≠ taskId →
      (deleteTasks tasks taskId).filter (fun t => t.id = other)
        = tasks.filter (fun t => t.id = other)) ∧
    (deleteTaskResult ⟨tasks, none⟩ taskId).map Dashboard.tasks
      = .ok (deleteTasks tasks taskId) := by
  refine ⟨?_, List.filter_sublist _, ?_, rfl⟩
  · intro t ht
    simp only [deleteTasks, List.mem_filter, decide_eq_true_eq] at ht
    exact ht.2
  · intro other hne
    simp only [deleteTasks, List.filter_filter]
    apply List.filter_congr
    intro t _
    by_cases h : t.id = other
    · simp [h, hne]
    · simp [h]

/-- C16: `totalTimeSpent` is the sum of `timeSpent` over the tasks; `avgTimePerTask`
is that sum divided by the number of tasks and `completionRate` is the number of
completed tasks divided by the number of tasks, times 100, both 0 for the empty
snapshot; so `completionRate` is a number that lies between 0 and 100.  For the
snapshot of a completed task with 30 minutes and a to-do task with 0 the values are
50, 30, 15. -/
theorem analytics_summary (tasks : List Task) :
    totalTimeSpent tasks = (tasks.map Task.timeSpent).sum ∧
    avgTimePerTask tasks =
      (if tasks.length = 0 then 0
       else (((tasks.map Task.timeSpent).sum : Int) : ℚ) / (tasks.length : ℚ)) ∧
    completionRate tasks =
      some (if tasks.length = 0 then 0
       else ((tasks.countP (fun t => t.status = "completed") : Nat) : ℚ)
        / (tasks.length : ℚ) * 100) ∧
    avgTimePerTask [] = 0 ∧ completionRate [] = some 0 ∧
    (∃ r, completionRate tasks = some r ∧ 0 ≤ r ∧ r ≤ 100) ∧
    completionRate sampleSnapshot = some 50 ∧ totalTimeSpent sampleSnapshot = 30 ∧
    avgTimePerTask sampleSnapshot = 15 := by
  refine ⟨totalTimeSpent_eq_sum tasks, avgTimePerTask_eq tasks, completionRate_eq tasks,
    by simp [avgTimePerTask], by simp [completionRate], ⟨_, completionRate_eq tasks, ?_, ?_⟩,
    ?_, ?_, ?_⟩
  · split
    · exact le_refl _
    · positivity
  · split
    · norm_num
    · rename_i h
      have hpos : (0 : ℚ) < (tasks.length : ℚ) := by
        exact_mod_cast Nat.pos_of_ne_zero h
      have hle : ((tasks.countP (fun t => t.status = "completed") : Nat) : ℚ)
          ≤ (tasks.length : ℚ) := by
        exact_mod_cast List.countP_le_length _
      have : ((tasks.countP (fun t => t.status = "completed") : Nat) : ℚ)
          / (tasks.length : ℚ) ≤ 1 := (div_le_one hpos).mpr hle
      linarith
  · rw [completionRate_eq]
    have h1 : sampleSnapshot.length = 2 := rfl
    have h2 : sampleSnapshot.countP (fun t => t.status = "completed") = 1 := by decide
    rw [h1, h2]
    norm_num
  · rw [totalTimeSpent_eq_sum]
    decide
  · rw [avgTimePerTask_eq]
    have h1 : sampleSnapshot.length = 2 := rfl
    have h2 : (sampleSnapshot.map Task.timeSpent).sum = 30 := by decide
    rw [h1, h2]
    norm_num

/-- C17, counterexample: for a task whose category is `constructor` the `reduce`
reads the inherited constructor function, and `+ 1` stores under that key a text,
the printed function followed by `1`, not the count 1; for the category `__proto__`
the assignment defines no key although a task has that value. -/
theorem inherited_name_not_counted :
    [{ newTask 1 1 with category := "constructor" }].countP
      (fun t => t.category = "constructor") = 1 ∧
    categoryStats [{ newTask 1 1 with category := "constructor" }]
      = [("constructor", .text "constructor" 1)] ∧
    (StatValue.text "constructor" 1).render
      = "function Object() \x7b [native code] \x7d1" ∧
    categoryStats [{ newTask 1 1 with category := "__proto__" }] = [] ∧
    ¬ CountsBy Task.category (categoryStats [{ newTask 1 1 with category := "constructor" }])
      [{ newTask 1 1 with category := "constructor" }] := by
  refine ⟨by decide, by decide, by decide, by decide, ?_⟩
  intro h
  have h2 := h.2.1 "constructor"
  revert h2
  decide

/-- C17, amended: for every snapshot in which no status, category or priority is the
name of a member that a plain object inherits, each of `statusStats`,
`categoryStats` and `priorityStats` has a key exactly for the values that at least
one task has, each key once; the count under a key is the number of tasks with that
value, and the counts of each object sum to the number of tasks. -/
theorem grouped_counts (tasks : List Task) (h : PlainValues tasks) :
    CountsBy Task.status (statusStats tasks) tasks ∧
    CountsBy Task.category (categoryStats tasks) tasks ∧
    CountsBy Task.priority (priorityStats tasks) tasks :=
  ⟨countsBy_foldl Task.status tasks (fun t ht => (h t ht).1),
    countsBy_foldl Task.category tasks (fun t ht => (h t ht).2.1),
    countsBy_foldl Task.priority tasks (fun t ht => (h t ht).2.2)⟩

/-- C17, amended, at the snapshot of a completed and a to-do task. -/
theorem grouped_counts_witness :
    PlainValues sampleSnapshot ∧
    statusStats sampleSnapshot = [("completed", .count 1), ("todo", .count 1)] ∧
    categoryStats sampleSnapshot = [("work", .count 2)] ∧
    CountsBy Task.status (statusStats sampleSnapshot) sampleSnapshot ∧
    CountsBy Task.category (categoryStats sampleSnapshot) sampleSnapshot ∧
    CountsBy Task.priority (priorityStats sampleSnapshot) sampleSnapshot :=
  ⟨by decide, by decide, by decide, grouped_counts sampleSnapshot (by decide)⟩

/-- C18, counterexample: a task stamped one day later than `now` passes the test of
`weeklyTasks`, which has no upper bound, and lies outside the window that ends at
`now`. -/
theorem weekly_counts_later_task :
    (newTask 1 (1000000000000 + dayMs)).createdAt > 1000000000000 ∧
    weeklyTasks [newTask 1 (1000000000000 + dayMs)] 1000000000000 = 1 ∧
    weeklyWindowCount [newTask 1 (1000000000000 + dayMs)] 1000000000000 = 0 :=
  ⟨by decide, by decide, by decide⟩

/-- C18, amended: `weeklyTasks` is the number of tasks created no earlier than 7 days
before `now`; for a snapshot in which no task is stamped later than `now` it is the
number of tasks created within the 7-day window that ends at `now`.  A task created
exactly 8 days before `now` is not counted, one created 6 days before is. -/
theorem weekly_counts_window (tasks : List Task) (now : Nat)
    (h : ∀ t ∈ tasks, t.createdAt ≤ now) :
    weeklyTasks tasks now = weeklyWindowCount tasks now ∧
    weeklyTasks tasks now = tasks.countP (fun t => now ≤ t.createdAt + 7 * dayMs) ∧
    (∀ idClock created, weeklyTasks [newTask idClock created] (created + 8 * dayMs) = 0) ∧
    (∀ idClock created, weeklyTasks [newTask idClock created] (created + 6 * dayMs) = 1) := by
  refine ⟨?_, ?_, ?_, ?_⟩
  · unfold weeklyTasks weeklyWindowCount
    rw [← List.countP_eq_length_filter]
    apply List.countP_congr
    intro t ht
    have := h t ht
    simp only [decide_eq_true_eq]
    constructor
    · intro h1; exact ⟨h1, this⟩
    · intro h1; exact h1.1
  · unfold weeklyTasks
    rw [← List.countP_eq_length_filter]
    apply List.countP_congr
    intro t _
    simp only [decide_eq_true_eq, dayMs]
    constructor
    · intro h1; omega
    · intro h1; omega
  · intro idClock created
    simp only [weeklyTasks, newTask, dayMs, List.filter_cons, List.filter_nil]
    have : ¬ ((((created + 8 * (24 * 60 * 60 * 1000) : Nat)) : Int) - 7 * 24 * 60 * 60 * 1000
        ≤ (created : Int)) := by
      push_cast; omega
    simp [this]
  · intro idClock created
    simp only [weeklyTasks, newTask, dayMs, List.filter_cons, List.filter_nil]
    have : ((((created + 6 * (24 * 60 * 60 * 1000) : Nat)) : Int) - 7 * 24 * 60 * 60 * 1000
        ≤ (created : Int)) := by
      push_cast; omega
    simp [this]

/-- C18, amended, at a snapshot of two tasks created 8 and 6 days before `now`. -/
theorem weekly_counts_window_witness :
    (∀ t ∈ [newTask 1 (1000000000000 - 8 * dayMs), newTask 2 (1000000000000 - 6 * dayMs)],
      t.createdAt ≤ 1000000000000) ∧
    weeklyTasks [newTask 1 (1000000000000 - 8 * dayMs), newTask 2 (1000000000000 - 6 * dayMs)]
      1000000000000 = 1 ∧
    weeklyTasks [newTask 1 (1000000000000 - 8 * dayMs), newTask 2 (1000000000000 - 6 * dayMs)]
        1000000000000
      = weeklyWindowCount
        [newTask 1 (1000000000000 - 8 * dayMs), newTask 2 (1000000000000 - 6 * dayMs)]
        1000000000000 :=
  ⟨by decide, by decide,
    (weekly_counts_window
      [newTask 1 (1000000000000 - 8 * dayMs), newTask 2 (1000000000000 - 6 * dayMs)]
      1000000000000 (by decide)).1⟩

/-- C19, the code at the failing input: with one high-priority task and no
low-priority task, `priorityStats.low` is `undefined` and the condition of the
recommendation is false, although 1 high-priority task is more than 0 low-priority
ones.  In general the condition holds exactly when some task has low priority and
more tasks have high priority than low. -/
theorem imbalance_needs_low_task :
    priorityImbalance [{ newTask 1 1 with priority := "high" }] = false ∧
    statsGet (priorityStats [{ newTask 1 1 with priority := "high" }]) "high"
      = some (.count 1) ∧
    statsGet (priorityStats [{ newTask 1 1 with priority := "high" }]) "low" = none ∧
    (∀ tasks : List Task, priorityImbalance tasks = true ↔
      0 < tasks.countP (fun t => t.priority = "low") ∧
      tasks.countP (fun t => t.priority = "low")
        < tasks.countP (fun t => t.priority = "high")) := by
  refine ⟨by decide, by decide, by decide, ?_⟩
  intro tasks
  have hh := statsGet_foldl Task.priority "high" (by decide) tasks
  have hl := statsGet_foldl Task.priority "low" (by decide) tasks
  unfold priorityImbalance priorityStats
  rw [hh, hl]
  by_cases h1 : tasks.countP (fun t => t.priority = "low") = 0
  · by_cases h2 : tasks.countP (fun t => t.priority = "high") = 0
    · simp [h1, h2, jsGreater]
    · simp [h1, h2, jsGreater]
  · by_cases h2 : tasks.countP (fun t => t.priority = "high") = 0
    · simp [h1, h2, jsGreater]
    · simp only [h1, h2, if_false, jsGreater, gt_iff_lt, decide_eq_true_eq]
      constructor
      · intro h; exact ⟨Nat.pos_of_ne_zero h1, h⟩
      · intro h; exact h.2

/-- C20: the selection for `all` is the snapshot, for `completed` the tasks whose
status is completed, for `pending` the others, each in snapshot order, and the last
two partition the snapshot.  For every scope and format the export shows the "No
tasks to export" toast and calls no serializer exactly when the selection is empty,
and otherwise calls the CSV serializer (format `csv`) or the PDF serializer on the
selection. -/
theorem export_selects_then_guards (tasks : List Task) (exportType exportFormat : String) :
    filteredTasks tasks "all" = tasks ∧
    (∀ t, t ∈ filteredTasks tasks "completed" ↔ t ∈ tasks ∧ t.status = "completed") ∧
    (∀ t, t ∈ filteredTasks tasks "pending" ↔ t ∈ tasks ∧ t.status ≠ "completed") ∧
    List.Sublist (filteredTasks tasks "completed") tasks ∧
    List.Sublist (filteredTasks tasks "pending") tasks ∧
    List.Perm (filteredTasks tasks "completed" ++ filteredTasks tasks "pending") tasks ∧
    (handleExport tasks exportType exportFormat = .noTasks
      ↔ filteredTasks tasks exportType = []) ∧
    handleExport tasks exportType exportFormat =
      (if filteredTasks tasks exportType = [] then .noTasks
       else if exportFormat = "csv" then .csv (filteredTasks tasks exportType)
       else .pdf (filteredTasks tasks exportType)) := by
  have hc : filteredTasks tasks "completed"
      = tasks.filter (fun t => decide (t.status = "completed")) := by
    simp [filteredTasks]
  have hp : filteredTasks tasks "pending"
      = tasks.filter (fun t => !decide (t.status = "completed")) := by
    simp [filteredTasks]
  have hout : handleExport tasks exportType exportFormat =
      (if filteredTasks tasks exportType = [] then .noTasks
       else if exportFormat = "csv" then .csv (filteredTasks tasks exportType)
       else .pdf (filteredTasks tasks exportType)) := by
    simp only [handleExport, List.length_eq_zero]
  refine ⟨by simp [filteredTasks], ?_, ?_, ?_, ?_, ?_, ?_, hout⟩
  · intro t; rw [hc]; simp
  · intro t; rw [hp]; simp
  · rw [hc]; exact List.filter_sublist _
  · rw [hp]; exact List.filter_sublist _
  · rw [hc, hp]; exact List.filter_append_perm _ _
  · rw [hout]
    by_cases h : filteredTasks tasks exportType = []
    · simp [h]
    · by_cases hf : exportFormat = "csv"
      · simp [h, hf]
      · simp [h, hf]

/-- C21, counterexample: one exported task whose description has two lines gives an
output of three lines, not two: the second line ends inside the description and
is not the record of the task. -/
theorem csv_description_newline_adds_line :
    csvContent (fun _ => "1/1/1970") [twoLineTask]
      = "Title,Description,Category,Priority,Status,Time Spent (minutes),Created At\n"
        ++ "\"New Task\",\"first\nsecond\",work,medium,todo,0,1/1/1970" ∧
    (splitLines (csvContent (fun _ => "1/1/1970") [twoLineTask]).toList).map String.mk
      = ["Title,Description,Category,Priority,Status,Time Spent (minutes),Created At",
         "\"New Task\",\"first",
         "second\",work,medium,todo,0,1/1/1970"] :=
  ⟨by decide, by decide⟩

/-- C21, amended: the flat-table output is the header and one record per task, in
list order, joined with newlines.  When no record holds a newline character its
lines are exactly the header `Title,Description,Category,Priority,Status,Time Spent
(minutes),Created At` followed by the records, `n + 1` lines for `n` tasks.  A
record holds the title and the description, each wrapped in double quotes, then
category, priority, status, `timeSpent` and the rendered date, unquoted, with commas
between. -/
theorem csv_lines (toLocaleDateString : Nat → String) (data : List Task)
    (h : ∀ t ∈ data, '\n' ∉ (csvRow toLocaleDateString t).toList) :
    csvContent toLocaleDateString data =
      jsJoin "\n"
        ("Title,Description,Category,Priority,Status,Time Spent (minutes),Created At"
          :: data.map (csvRow toLocaleDateString)) ∧
    splitLines (csvContent toLocaleDateString data).toList =
      "Title,Description,Category,Priority,Status,Time Spent (minutes),Created At".toList
        :: data.map (fun t => (csvRow toLocaleDateString t).toList) ∧
    (splitLines (csvContent toLocaleDateString data).toList).length = data.length + 1 ∧
    (∀ t : Task, csvRow toLocaleDateString t =
      "\"" ++ t.title ++ "\"" ++ "," ++ ("\"" ++ t.description ++ "\"" ++ "," ++
        (t.category ++ "," ++ (t.priority ++ "," ++ (t.status ++ "," ++
          (toString t.timeSpent ++ "," ++ toLocaleDateString t.createdAt)))))) := by
  have hhead : jsJoin "," csvHeaders
      = "Title,Description,Category,Priority,Status,Time Spent (minutes),Created At" := by
    decide
  have hcontent : csvContent toLocaleDateString data =
      jsJoin "\n"
        ("Title,Description,Category,Priority,Status,Time Spent (minutes),Created At"
          :: data.map (csvRow toLocaleDateString)) := by
    unfold csvContent
    rw [hhead]
  have hsplit : splitLines (csvContent toLocaleDateString data).toList =
      "Title,Description,Category,Priority,Status,Time Spent (minutes),Created At".toList
        :: data.map (fun t => (csvRow toLocaleDateString t).toList) := by
    rw [hcontent, splitLines_jsJoin]
    · simp [List.map_map, Function.comp_def]
    · intro p hp
      rcases List.mem_cons.mp hp with hp | hp
      · rw [hp]; decide
      · obtain ⟨t, ht, rfl⟩ := List.mem_map.mp hp
        exact h t ht
  refine ⟨hcontent, hsplit, ?_, csvRow_eq toLocaleDateString⟩
  rw [hsplit]
  simp

/-- C21, amended, at two tasks: three lines, the header and the two records. -/
theorem csv_lines_witness :
    (∀ t ∈ [newTask 1 1, { newTask 2 2 with title := "Write, then send" }],
      '\n' ∉ (csvRow (fun _ => "1/1/1970") t).toList) ∧
    (splitLines (csvContent (fun _ => "1/1/1970")
      [newTask 1 1, { newTask 2 2 with title := "Write, then send" }]).toList).length = 2 + 1 ∧
    (splitLines (csvContent (fun _ => "1/1/1970")
      [newTask 1 1, { newTask 2 2 with title := "Write, then send" }]).toList).map String.mk
      = ["Title,Description,Category,Priority,Status,Time Spent (minutes),Created At",
         "\"New Task\",\"\",work,medium,todo,0,1/1/1970",
         "\"Write, then send\",\"\",work,medium,todo,0,1/1/1970"] :=
  ⟨by decide,
    (csv_lines (fun _ => "1/1/1970")
      [newTask 1 1, { newTask 2 2 with title := "Write, then send" }] (by decide)).2.2.1,
    by decide⟩

/-- C22: the report states `Total Tasks:` with the length of the list and `Total Time
Tracked:` with the formatted sum of the tasks' `timeSpent`; its table has the
columns Title, Category, Priority, Status, Time Spent and one row per task in list
order, the time formatted.  A time of `t` minutes, `t` a natural number, is
rendered as `<H>h <M>m` with `H = t / 60` and `M = t % 60`, so `60 * H + M = t` and
`M < 60`. -/
theorem report_summary_and_rows (exportDate : String) (data : List Task) (t : Nat) :
    (exportToPDF exportDate data).texts =
      ["TaskFlow Pro - Task Report",
       "Export Date: " ++ exportDate,
       "Total Tasks: " ++ toString data.length,
       "Total Time Tracked: " ++ formatTime (data.map Task.timeSpent).sum] ∧
    (exportToPDF exportDate data).head
      = [["Title", "Category", "Priority", "Status", "Time Spent"]] ∧
    (exportToPDF exportDate data).body.length = data.length ∧
    (∀ (i : Nat) (task : Task), data[i]? = some task →
      (exportToPDF exportDate data).body[i]? =
        some [task.title, task.category, task.priority, task.status,
          formatTime task.timeSpent]) ∧
    formatTime (t : Int) = toString (t / 60) ++ "h " ++ toString (t % 60) ++ "m" ∧
    60 * (t / 60) + t % 60 = t ∧ t % 60 < 60 ∧
    formatTime 125 = "2h 5m" ∧ formatTime 0 = "0h 0m" := by
  refine ⟨?_, rfl, by simp [exportToPDF], ?_, formatTime_natCast t, by omega, by omega,
    by decide, by decide⟩
  · simp only [exportToPDF, totalTimeSpent_foldl, zero_add]
  · intro i task hi
    simp [exportToPDF, List.getElem?_map, hi]

end ProductivityTracker
